import Mathlib

/-!
Verification of the `ssdlc-action` license-token subsystem.

The Python sources embedded here (shallowly) are:
- `src/licensing/validate.py` — token verifier, revocation loading, legacy
  fallback, CLI entry point;
- `tools/licensing/issue_license.py` — token issuer;
- `tools/licensing/generate_keypair.py` — keystore temp-file write sequence.

Python strings are modelled as `List Char` (`Str`), bytes as `List Nat`
(each byte `< 256` where it matters), JSON values as the inductive `JVal`,
and code that can raise as `Except PyExc _`.  Ed25519 is modelled
abstractly: the verifier is parametric in a `verify : bytes → bytes → Bool`
oracle and the issuer in a `sign : bytes → bytes` function; theorems that
need the two to match take the pairing as a hypothesis.
-/

/-- Python strings are modelled as lists of unicode scalar values. -/
abbrev Str := List Char

/-- Conversion from a Lean string literal to the `Str` model. -/
def str (s : String) : Str := s.data

/-- ASCII decimal digit test (as used by the JSON number grammar). -/
def isDigitCh (c : Char) : Bool := 48 ≤ c.toNat && c.toNat ≤ 57

/-- `str.split(sep)` for a single-character separator: splits on every
occurrence, keeping empty segments (Python semantics). -/
def splitCh (sep : Char) : Str → List Str
  | [] => [[]]
  | c :: rest =>
    match splitCh sep rest with
    | [] => [[c]]
    | g :: gs => if c = sep then [] :: g :: gs else (c :: g) :: gs

/-- `str.startswith(p)` on the `Str` model. -/
def startsWith : Str → Str → Bool
  | [], _ => true
  | _ :: _, [] => false
  | p :: ps, c :: cs => p = c && startsWith ps cs

/-- ASCII whitespace test used to model `str.strip()`. -/
def isSpaceCh (c : Char) : Bool :=
  c = ' ' || c = '\t' || c = '\n' || c = '\r' ||
    c.toNat = 11 || c.toNat = 12

/-- `str.strip()`: remove leading and trailing whitespace.  (Python strips
unicode whitespace; the model covers the ASCII whitespace characters.) -/
def stripStr (s : Str) : Str :=
  ((s.dropWhile isSpaceCh).reverse.dropWhile isSpaceCh).reverse

/-- `str.lower()` (ASCII range, which covers every comparison the code
performs against the lowercase literals `free`/`pro`/`enterprise`). -/
def lowerStr (s : Str) : Str := s.map Char.toLower

/-- `str.upper()` (ASCII range, used only to test the `ENT-`/`PRO-`
prefixes). -/
def upperStr (s : Str) : Str := s.map Char.toUpper

/-! ### base64url (`base64.urlsafe_b64encode` / `b64url_decode`)

`issue_license.b64url_encode` strips the `=` padding; `validate.b64url_decode`
re-adds padding and decodes, rejecting inputs whose length is `1 mod 4`.
The model decodes strictly over the url-safe alphabet. -/

/-- The url-safe base64 alphabet. -/
def b64Alphabet : Str :=
  str "ABCDEFGHIJKLMNOPQRSTUVWXYZabcdefghijklmnopqrstuvwxyz0123456789-_"

/-- The alphabet character for a 6-bit value. -/
def b64Char (n : Nat) : Char := b64Alphabet.getD n 'A'

/-- Position search used by `b64Val`. -/
def b64ValAux : Str → Nat → Char → Option Nat
  | [], _, _ => none
  | a :: as, i, c => if a = c then some i else b64ValAux as (i + 1) c

/-- The 6-bit value of an alphabet character, `none` outside the alphabet. -/
def b64Val (c : Char) : Option Nat := b64ValAux b64Alphabet 0 c

/-- Padding-free url-safe base64 of a byte list
(`b64url_encode` in `issue_license.py`). -/
def b64urlEncode : List Nat → Str
  | [] => []
  | [a] => [b64Char (a / 4), b64Char (a % 4 * 16)]
  | [a, b] => [b64Char (a / 4), b64Char (a % 4 * 16 + b / 16), b64Char (b % 16 * 4)]
  | a :: b :: c :: rest =>
    b64Char (a / 4) :: b64Char (a % 4 * 16 + b / 16) ::
      b64Char (b % 16 * 4 + c / 64) :: b64Char (c % 64) :: b64urlEncode rest

/-- Strict url-safe base64 decoding of an unpadded string
(`b64url_decode` in `validate.py`: padding is re-added, so a length of
`1 mod 4` or a character outside the alphabet fails). -/
def b64urlDecode : Str → Option (List Nat)
  | [] => some []
  | [_] => none
  | [c, d] => do
    let v1 ← b64Val c
    let v2 ← b64Val d
    some [v1 * 4 + v2 / 16]
  | [c, d, e] => do
    let v1 ← b64Val c
    let v2 ← b64Val d
    let v3 ← b64Val e
    some [v1 * 4 + v2 / 16, v2 % 16 * 16 + v3 / 4]
  | c :: d :: e :: f :: rest => do
    let v1 ← b64Val c
    let v2 ← b64Val d
    let v3 ← b64Val e
    let v4 ← b64Val f
    let tl ← b64urlDecode rest
    some ((v1 * 4 + v2 / 16) :: (v2 % 16 * 16 + v3 / 4) :: (v3 % 4 * 64 + v4) :: tl)

/-! ### UTF-8 (`str.encode("utf-8")` / `bytes.decode("utf-8")`) -/

/-- UTF-8 encoding of a single scalar value. -/
def utf8EncodeChar (c : Char) : List Nat :=
  if c.toNat < 128 then [c.toNat]
  else if c.toNat < 2048 then [192 + c.toNat / 64, 128 + c.toNat % 64]
  else if c.toNat < 65536 then
    [224 + c.toNat / 4096, 128 + c.toNat / 64 % 64, 128 + c.toNat % 64]
  else
    [240 + c.toNat / 262144, 128 + c.toNat / 4096 % 64,
      128 + c.toNat / 64 % 64, 128 + c.toNat % 64]

/-- `str.encode("utf-8")` on the model. -/
def utf8Encode : Str → List Nat
  | [] => []
  | c :: rest => utf8EncodeChar c ++ utf8Encode rest

/-- Continuation-byte test `0x80 ≤ b < 0xC0`. -/
def isCont (b : Nat) : Bool := 128 ≤ b && b < 192

/-- One UTF-8 character step of strict decoding: decode the first scalar
value, returning it with the remaining bytes.  Rejects stray continuation
bytes, overlong forms, surrogate encodings and values above `0x10FFFF`,
as CPython's strict `bytes.decode("utf-8")` does. -/
def utf8Step : List Nat → Option (Char × List Nat)
  | [] => none
  | b :: rest =>
    if b < 128 then some (Char.ofNat b, rest)
    else if b < 194 then none
    else if b < 224 then
      match rest with
      | b2 :: r =>
        if isCont b2 then
          some (Char.ofNat ((b - 192) * 64 + (b2 - 128)), r)
        else none
      | [] => none
    else if b < 240 then
      match rest with
      | b2 :: b3 :: r =>
        if isCont b2 && isCont b3 &&
            (b ≠ 224 || 160 ≤ b2) && (b ≠ 237 || b2 < 160) then
          some (Char.ofNat ((b - 224) * 4096 + (b2 - 128) * 64 + (b3 - 128)), r)
        else none
      | _ => none
    else if b < 245 then
      match rest with
      | b2 :: b3 :: b4 :: r =>
        if isCont b2 && isCont b3 && isCont b4 &&
            (b ≠ 240 || 144 ≤ b2) && (b ≠ 244 || b2 < 144) then
          some (Char.ofNat ((b - 240) * 262144 + (b2 - 128) * 4096 +
            (b3 - 128) * 64 + (b4 - 128)), r)
        else none
      | _ => none
    else none

/-- Fuel-driven decoding loop; each step consumes at least one byte, so
fuel equal to the byte count always suffices. -/
def utf8DecodeLoop : Nat → List Nat → Option Str
  | _, [] => some []
  | 0, _ :: _ => none
  | fuel + 1, b :: rest =>
    match utf8Step (b :: rest) with
    | some (c, r) => (utf8DecodeLoop fuel r).map (fun tl => c :: tl)
    | none => none

/-- Strict UTF-8 decoding (`bytes.decode("utf-8")`). -/
def utf8Decode (l : List Nat) : Option Str := utf8DecodeLoop l.length l

/-! ### JSON values

The verifier's payloads and the revocation file are JSON.  `JVal` models
the values `json.loads` can produce, except floats, which the model omits:
no code path under verification produces or needs a float (claims carry
integers and strings), and a float-bearing payload differs from the model
only in which failure it produces. -/

/-- JSON values (without floats; see the section comment). -/
inductive JVal where
  | jnull : JVal
  | jbool : Bool → JVal
  | jint : Int → JVal
  | jstr : Str → JVal
  | jarr : List JVal → JVal
  | jobj : List (Str × JVal) → JVal

/-- Dictionary lookup with Python semantics for objects built by
`json.loads`: on duplicate keys the last occurrence wins. -/
def lookupLast (kvs : List (Str × JVal)) (k : Str) : Option JVal :=
  match kvs with
  | [] => none
  | (k0, v0) :: rest =>
    match lookupLast rest k with
    | some v => some v
    | none => if k0 = k then some v0 else none

/-- Python truthiness of a JSON-derived value (`if jti and ...`). -/
def pyTruthy : JVal → Bool
  | .jnull => false
  | .jbool b => b
  | .jint n => n != 0
  | .jstr s => !s.isEmpty
  | .jarr xs => !xs.isEmpty
  | .jobj kvs => !kvs.isEmpty

/-- `Char.ofNat (48 + d)` for a decimal digit. -/
def digitChar (d : Nat) : Char := Char.ofNat (48 + d)

/-- Fuel-driven decimal rendering (most significant digit first); fuel
`n + 1` always suffices. -/
def natDigitsFuel : Nat → Nat → Str
  | 0, _ => []
  | fuel + 1, n =>
    if n < 10 then [digitChar n]
    else natDigitsFuel fuel (n / 10) ++ [digitChar (n % 10)]

/-- Decimal rendering of a natural number (`str(n)` / `json.dumps(n)`). -/
def natDigits (n : Nat) : Str := natDigitsFuel (n + 1) n

/-- Decimal rendering of an integer. -/
def intDigits (n : Int) : Str :=
  if n < 0 then '-' :: natDigits n.natAbs else natDigits n.natAbs

mutual

/-- `repr`-style rendering of container elements (see `pyStr`). -/
def pyRepr : JVal → Str
  | .jnull => str "None"
  | .jbool true => str "True"
  | .jbool false => str "False"
  | .jint n => intDigits n
  | .jstr s => '\'' :: s ++ ['\'']
  | .jarr xs => '[' :: pyReprList xs ++ [']']
  | .jobj kvs => '{' :: pyReprMembers kvs ++ ['}']

/-- Comma-joined `repr`s of list elements. -/
def pyReprList : List JVal → Str
  | [] => []
  | [x] => pyRepr x
  | x :: y :: rest => pyRepr x ++ ',' :: ' ' :: pyReprList (y :: rest)

/-- Comma-joined `repr`s of dict members. -/
def pyReprMembers : List (Str × JVal) → Str
  | [] => []
  | [(k, v)] => '\'' :: k ++ '\'' :: ':' :: ' ' :: pyRepr v
  | (k, v) :: m :: rest =>
    '\'' :: k ++ '\'' :: ':' :: ' ' :: pyRepr v ++ ',' :: ' ' :: pyReprMembers (m :: rest)

end

/-- Python `str()` applied to a JSON-derived value, as used by
`str(claims.get("plan", "free"))` and `str(jti)`.  Containers render
bracketed with `repr`-style elements; string elements inside containers
are placed between single quotes without Python's inner escaping, which
is observationally irrelevant here (results of `pyStr` on containers are
only ever compared against the plain words `free`/`pro`/`enterprise` and
revocation identifiers). -/
def pyStr : JVal → Str
  | .jnull => str "None"
  | .jbool true => str "True"
  | .jbool false => str "False"
  | .jint n => intDigits n
  | .jstr s => s
  | .jarr xs => '[' :: pyReprList xs ++ [']']
  | .jobj kvs => '{' :: pyReprMembers kvs ++ ['}']

/-! ### Canonical JSON serialisation
(`json.dumps(claims, sort_keys=True, separators=(",", ":"))`, with the
default `ensure_ascii=True`). -/

/-- Lowercase hex digit. -/
def hexDigit (n : Nat) : Char :=
  if n < 10 then Char.ofNat (48 + n) else Char.ofNat (87 + n)

/-- Four lowercase hex digits of a value below `0x10000`. -/
def hex4 (n : Nat) : Str :=
  [hexDigit (n / 4096 % 16), hexDigit (n / 256 % 16),
    hexDigit (n / 16 % 16), hexDigit (n % 16)]

/-- `\uXXXX` escape (with a surrogate pair above `0xFFFF`), as
`json.dumps` emits with `ensure_ascii=True`. -/
def uEscape (n : Nat) : Str :=
  if n < 65536 then '\\' :: 'u' :: hex4 n
  else
    '\\' :: 'u' :: hex4 (55296 + (n - 65536) / 1024) ++
      '\\' :: 'u' :: hex4 (56320 + (n - 65536) % 1024)

/-- JSON string escaping of one character (`ensure_ascii=True`): the
two-character escapes for `"`, `\`, backspace, form feed, newline,
carriage return and tab; `\uXXXX` for every other character outside
`0x20`–`0x7E`; the character itself otherwise. -/
def escChar (c : Char) : Str :=
  if c = '"' then ['\\', '"']
  else if c = '\\' then ['\\', '\\']
  else if c.toNat = 8 then ['\\', 'b']
  else if c.toNat = 12 then ['\\', 'f']
  else if c = '\n' then ['\\', 'n']
  else if c = '\r' then ['\\', 'r']
  else if c = '\t' then ['\\', 't']
  else if c.toNat < 32 || 126 < c.toNat then uEscape c.toNat
  else [c]

/-- Escaped body of a JSON string. -/
def escBody : Str → Str
  | [] => []
  | c :: rest => escChar c ++ escBody rest

/-- A JSON string literal: quoted escaped body. -/
def escString (s : Str) : Str := '"' :: escBody s ++ ['"']

/-- Lexicographic (code-point) strict order on strings, as Python string
comparison sorts dictionary keys. -/
def strLtB : Str → Str → Bool
  | [], [] => false
  | [], _ :: _ => true
  | _ :: _, [] => false
  | a :: as, b :: bs =>
    if a.toNat < b.toNat then true
    else if b.toNat < a.toNat then false
    else strLtB as bs

/-- Insert a rendered member into a key-sorted list of rendered members. -/
def insRendered (p : Str × Str) : List (Str × Str) → List (Str × Str)
  | [] => [p]
  | q :: qs => if strLtB p.1 q.1 then p :: q :: qs else q :: insRendered p qs

/-- Insertion sort of rendered members by key (`sort_keys=True`). -/
def sortRendered : List (Str × Str) → List (Str × Str)
  | [] => []
  | p :: ps => insRendered p (sortRendered ps)

/-- Join with the compact item separator `,` (`separators=(",", ":")`). -/
def joinComma : List Str → Str
  | [] => []
  | [x] => x
  | x :: y :: rest => x ++ ',' :: joinComma (y :: rest)

mutual

/-- `json.dumps(v, sort_keys=True, separators=(",", ":"))`: members of
every object are rendered as `<escaped key>:<value>` and emitted in
sorted key order. -/
def dumpsJ : JVal → Str
  | .jnull => str "null"
  | .jbool true => str "true"
  | .jbool false => str "false"
  | .jint n => intDigits n
  | .jstr s => escString s
  | .jarr xs => '[' :: joinComma (dumpsList xs) ++ [']']
  | .jobj kvs =>
    '{' :: joinComma ((sortRendered (dumpsPairs kvs)).map Prod.snd) ++ ['}']

/-- Rendered array elements, in order. -/
def dumpsList : List JVal → List Str
  | [] => []
  | x :: rest => dumpsJ x :: dumpsList rest

/-- Rendered object members, paired with their keys for sorting. -/
def dumpsPairs : List (Str × JVal) → List (Str × Str)
  | [] => []
  | (k, v) :: rest => (k, escString k ++ ':' :: dumpsJ v) :: dumpsPairs rest

end

/-! ### JSON parsing (`json.loads`)

Faithful to CPython's `json` for everything the licensing code can
encounter, with two documented divergences on exotic payloads: floats are
not modelled (a payload containing a float literal fails to parse here,
while CPython would parse it and the verifier would then raise on
`claims.get` or accept per `int()`), and a lone surrogate `\uXXXX` escape
is rejected here because Lean characters are scalar values. -/

/-- The JSON whitespace characters skipped between tokens. -/
def skipWs (s : Str) : Str :=
  s.dropWhile (fun c => c = ' ' || c = '\t' || c = '\n' || c = '\r')

/-- Hex digit value (both cases accepted, as in `\uXXXX` parsing). -/
def hexVal (c : Char) : Option Nat :=
  if 48 ≤ c.toNat && c.toNat ≤ 57 then some (c.toNat - 48)
  else if 97 ≤ c.toNat && c.toNat ≤ 102 then some (c.toNat - 87)
  else if 65 ≤ c.toNat && c.toNat ≤ 70 then some (c.toNat - 55)
  else none

/-- Value of four hex digits. -/
def hex4Val (h1 h2 h3 h4 : Char) : Option Nat := do
  let a ← hexVal h1
  let b ← hexVal h2
  let c ← hexVal h3
  let d ← hexVal h4
  some (a * 4096 + b * 256 + c * 16 + d)

/-- Prepend a character to the string of a partial parse. -/
def mapConsCh (c : Char) (o : Option (Str × Str)) : Option (Str × Str) :=
  o.map (fun p => (c :: p.1, p.2))

/-- Continuation of a `\uXXXX` escape once the four hex digits have been
read: combine a surrogate pair, reject a lone surrogate, keep any other
value. -/
def escUnicode (n : Nat) (r2 : Str) : Option (Char × Str) :=
  if 55296 ≤ n && n < 56320 then
    match r2 with
    | '\\' :: 'u' :: g1 :: g2 :: g3 :: g4 :: r3 =>
      match hex4Val g1 g2 g3 g4 with
      | none => none
      | some m =>
        if 56320 ≤ m && m < 57344 then
          some (Char.ofNat (65536 + (n - 55296) * 1024 + (m - 56320)), r3)
        else none
    | _ => none
  else if 56320 ≤ n && n < 57344 then none
  else some (Char.ofNat n, r2)

/-- One escape sequence after a backslash: the decoded character and the
remaining input.  Surrogate-pair escapes are combined; a lone surrogate
escape is rejected (CPython would keep it, but a Lean character is a
scalar value — only exotic hand-crafted payloads differ). -/
def escStep : Str → Option (Char × Str)
  | [] => none
  | e :: r =>
    if e = '"' then some ('"', r)
    else if e = '\\' then some ('\\', r)
    else if e = '/' then some ('/', r)
    else if e = 'b' then some (Char.ofNat 8, r)
    else if e = 'f' then some (Char.ofNat 12, r)
    else if e = 'n' then some ('\n', r)
    else if e = 'r' then some ('\r', r)
    else if e = 't' then some ('\t', r)
    else if e = 'u' then
      match r with
      | h1 :: h2 :: h3 :: h4 :: r2 =>
        match hex4Val h1 h2 h3 h4 with
        | none => none
        | some n => escUnicode n r2
      | _ => none
    else none

/-- Fuel-driven loop for the body of a JSON string after the opening
quote; each step consumes at least one character, so fuel equal to the
input length always suffices.  Unescaped control characters are rejected
(`strict=True`). -/
def parseStrBodyLoop : Nat → Str → Option (Str × Str)
  | 0, _ => none
  | _ + 1, [] => none
  | fuel + 1, c :: rest =>
    if c = '"' then some ([], rest)
    else if c = '\\' then
      match escStep rest with
      | some (ch, r) => mapConsCh ch (parseStrBodyLoop fuel r)
      | none => none
    else if c.toNat < 32 then none
    else mapConsCh c (parseStrBodyLoop fuel rest)

/-- Parse the body of a JSON string after the opening quote, returning
the string and the input after the closing quote. -/
def parseStrBody (s : Str) : Option (Str × Str) := parseStrBodyLoop s.length s

/-- Munch decimal digits into an accumulator. -/
def munchDigits (acc : Nat) : Str → Nat × Str
  | [] => (acc, [])
  | c :: rest =>
    if isDigitCh c then munchDigits (acc * 10 + (c.toNat - 48)) rest
    else (acc, c :: rest)

/-- The integer part of the JSON number grammar `-?(0|[1-9][0-9]*)`.
(The fraction/exponent continuation belongs to floats, which the model
omits; see the section comment.) -/
def parseJIntTok : Str → Option (Int × Str)
  | '-' :: r =>
    match r with
    | '0' :: rest => some (0, rest)
    | c :: rest =>
      if isDigitCh c then
        match munchDigits (c.toNat - 48) rest with
        | (n, r2) => some (-(n : Int), r2)
      else none
    | [] => none
  | '0' :: rest => some (0, rest)
  | c :: rest =>
    if isDigitCh c then
      match munchDigits (c.toNat - 48) rest with
      | (n, r2) => some ((n : Int), r2)
    else none
  | [] => none

mutual

/-- Parse one JSON value (fuel decreases at every recursive call; the
top level supplies fuel larger than the input length, which always
suffices because every value and member consumes at least one
character). -/
def parseVal : Nat → Str → Option (JVal × Str)
  | 0, _ => none
  | fuel + 1, l =>
    match skipWs l with
    | [] => none
    | c :: rest =>
      if c = '{' then
        match skipWs rest with
        | '}' :: r2 => some (.jobj [], r2)
        | r2 => (parseMembers fuel r2).map (fun p => (.jobj p.1, p.2))
      else if c = '[' then
        match skipWs rest with
        | ']' :: r2 => some (.jarr [], r2)
        | r2 => (parseElems fuel r2).map (fun p => (.jarr p.1, p.2))
      else if c = '"' then
        (parseStrBody rest).map (fun p => (.jstr p.1, p.2))
      else if c = 't' then
        match rest with
        | 'r' :: 'u' :: 'e' :: r => some (.jbool true, r)
        | _ => none
      else if c = 'f' then
        match rest with
        | 'a' :: 'l' :: 's' :: 'e' :: r => some (.jbool false, r)
        | _ => none
      else if c = 'n' then
        match rest with
        | 'u' :: 'l' :: 'l' :: r => some (.jnull, r)
        | _ => none
      else
        (parseJIntTok (c :: rest)).map (fun p => (.jint p.1, p.2))

/-- Parse the non-empty element list of an array, after `[`. -/
def parseElems : Nat → Str → Option (List JVal × Str)
  | 0, _ => none
  | fuel + 1, l =>
    match parseVal fuel l with
    | none => none
    | some (v, r) =>
      match skipWs r with
      | ',' :: r2 => (parseElems fuel r2).map (fun p => (v :: p.1, p.2))
      | ']' :: r2 => some ([v], r2)
      | _ => none

/-- Parse the non-empty member list of an object, after `{`. -/
def parseMembers : Nat → Str → Option (List (Str × JVal) × Str)
  | 0, _ => none
  | fuel + 1, l =>
    match skipWs l with
    | '"' :: r =>
      match parseStrBody r with
      | none => none
      | some (k, r2) =>
        match skipWs r2 with
        | ':' :: r3 =>
          match parseVal fuel r3 with
          | none => none
          | some (v, r4) =>
            match skipWs r4 with
            | ',' :: r5 => (parseMembers fuel r5).map (fun p => ((k, v) :: p.1, p.2))
            | '}' :: r5 => some ([(k, v)], r5)
            | _ => none
        | _ => none
    | _ => none

end

/-- `json.loads`: parse a complete document, requiring only whitespace
after the value. -/
def parseJson (s : Str) : Option JVal :=
  match parseVal (s.length + 1) s with
  | some (v, rest) => if skipWs rest = [] then some v else none
  | none => none

/-! ### The licensing code itself -/

/-- Python exceptions the verifier can raise past its `try` blocks. -/
inductive PyExc where
  | attributeError : PyExc
  | typeError : PyExc
  | valueError : PyExc
deriving DecidableEq

/-- A validation result object `{valid, tier, reason, claims?}`;
`claims = none` models the absence of the `"claims"` key. -/
structure VResult where
  valid : Bool
  tier : Str
  reason : String
  claims : Option JVal

/-- `claims.get(k, d)` — raises `AttributeError` when the parsed payload
is not a dict. -/
def pyGetD (v : JVal) (k : Str) (d : JVal) : Except PyExc JVal :=
  match v with
  | .jobj kvs => .ok ((lookupLast kvs k).getD d)
  | _ => .error .attributeError

/-- `claims.get(k)` — `none` when the key is absent. -/
def pyGet (v : JVal) (k : Str) : Except PyExc (Option JVal) :=
  match v with
  | .jobj kvs => .ok (lookupLast kvs k)
  | _ => .error .attributeError

/-- Python `x is None` for the result of `claims.get(k)`: true when the
key is absent or its value is JSON `null`. -/
def isNoneV : Option JVal → Bool
  | none => true
  | some .jnull => true
  | some _ => false

/-- Python `int(s)` on a string: optional sign and decimal digits after
stripping whitespace.  (CPython additionally accepts underscores between
digits and non-ASCII digits; no claim depends on those.) -/
def parsePyIntStr (s : Str) : Option Int :=
  let digitsVal : Str → Int := fun ds =>
    ((ds.foldl (fun a c => a * 10 + (c.toNat - 48)) 0 : Nat) : Int)
  match stripStr s with
  | '-' :: ds =>
    if !ds.isEmpty && ds.all isDigitCh then some (-(digitsVal ds)) else none
  | '+' :: ds =>
    if !ds.isEmpty && ds.all isDigitCh then some (digitsVal ds) else none
  | ds =>
    if !ds.isEmpty && ds.all isDigitCh then some (digitsVal ds) else none

/-- Python `int(x)` on a JSON-derived value: ints and bools coerce,
numeric strings parse (`ValueError` otherwise), `None`, lists and dicts
raise `TypeError`. -/
def pyToInt : JVal → Except PyExc Int
  | .jint n => .ok n
  | .jbool b => .ok (if b then 1 else 0)
  | .jstr s =>
    match parsePyIntStr s with
    | some n => .ok n
    | none => .error .valueError
  | .jnull => .error .typeError
  | .jarr _ => .error .typeError
  | .jobj _ => .error .typeError

/-- `str(jti) in revoked_jti` — a string is in the revocation set exactly
when an equal string element is present. -/
def strInRevoked (s : Str) (revoked : List JVal) : Bool :=
  revoked.any (fun v =>
    match v with
    | .jstr t => t = s
    | _ => false)

/-- Stage 8 of `validate_signed_token` (lines 132–146 of `validate.py`):
the revocation check and the terminal success.  `plan` is the lowercased
rendered plan claim computed at stage 5. -/
def stageJti (claims : JVal) (revoked_jti : List JVal) (plan : Str) :
    Except PyExc VResult :=
  match pyGet claims (str "jti") with
  | .error e => .error e
  | .ok jtiOpt =>
    let jtiV := jtiOpt.getD .jnull
    if pyTruthy jtiV && strInRevoked (pyStr jtiV) revoked_jti then
      .ok ⟨false, str "free", "revoked", some claims⟩
    else
      .ok ⟨true, plan, "ok", some claims⟩

/-- Stage 7 (lines 123–130): the `nbf` check, then stage 8. -/
def stageNbf (claims : JVal) (revoked_jti : List JVal) (now : Int) (plan : Str) :
    Except PyExc VResult :=
  match pyGet claims (str "nbf") with
  | .error e => .error e
  | .ok nbfOpt =>
    if isNoneV nbfOpt then stageJti claims revoked_jti plan
    else
      match pyToInt (nbfOpt.getD .jnull) with
      | .error e => .error e
      | .ok i =>
        if i > now then .ok ⟨false, str "free", "not_yet_valid", some claims⟩
        else stageJti claims revoked_jti plan

/-- Stage 6 (lines 114–121): the `exp` check, then stages 7–8. -/
def stageExp (claims : JVal) (revoked_jti : List JVal) (now : Int) (plan : Str) :
    Except PyExc VResult :=
  match pyGet claims (str "exp") with
  | .error e => .error e
  | .ok expOpt =>
    if isNoneV expOpt then stageNbf claims revoked_jti now plan
    else
      match pyToInt (expOpt.getD .jnull) with
      | .error e => .error e
      | .ok i =>
        if i < now then .ok ⟨false, str "free", "expired", some claims⟩
        else stageNbf claims revoked_jti now plan

/-- The lowercased rendered `plan` claim of a payload dict
(stage 5's `str(claims.get("plan", "free")).lower()`). -/
def planOf (kvs : List (Str × JVal)) : Str :=
  lowerStr (pyStr ((lookupLast kvs (str "plan")).getD (.jstr (str "free"))))

/-- Stages 5–8 of `validate_signed_token` (lines 103–146 of
`validate.py`), operating on the parsed payload.  Faithful to the raises:
on a non-dict payload the first `claims.get` raises `AttributeError`
(here the non-object branch), and `int(exp)` / `int(nbf)` raise on
non-coercible values (inside `stageExp` / `stageNbf`). -/
def validateClaims (claims : JVal) (revoked_jti : List JVal) (now : Int) :
    Except PyExc VResult :=
  match claims with
  | .jobj kvs =>
    if ¬ (planOf kvs = str "free" ∨ planOf kvs = str "pro" ∨
        planOf kvs = str "enterprise") then
      .ok ⟨false, str "free", "invalid_plan", some (.jobj kvs)⟩
    else stageExp (.jobj kvs) revoked_jti now (planOf kvs)
  | _ => .error .attributeError

/-- `validate_signed_token(token, public_key, revoked_jti)`
(lines 60–146 of `validate.py`).  `verify sig payload = true` models
`public_key.verify(signature, payload_bytes)` succeeding; `now` models
`int(time.time())`. -/
def validate_signed_token (verify : List Nat → List Nat → Bool)
    (token : Str) (revoked_jti : List JVal) (now : Int) :
    Except PyExc VResult :=
  match splitCh '.' token with
  | [p0, p1, p2] =>
    if p0 ≠ str "SSDL1" then
      .ok ⟨false, str "free", "invalid_format", none⟩
    else
      match b64urlDecode p1, b64urlDecode p2 with
      | some payload_bytes, some signature =>
        if !verify signature payload_bytes then
          .ok ⟨false, str "free", "invalid_signature", none⟩
        else
          match (utf8Decode payload_bytes).bind parseJson with
          | none => .ok ⟨false, str "free", "invalid_payload", none⟩
          | some claims => validateClaims claims revoked_jti now
      | _, _ => .ok ⟨false, str "free", "invalid_encoding", none⟩
  | _ => .ok ⟨false, str "free", "invalid_format", none⟩

/-- The legacy unsigned-credential check (lines 149–175 of `validate.py`,
named there for the legacy key prefixes).  `uuid` models the fresh
`str(uuid.uuid4())` drawn during the call. -/
def validate_legacy (uuid : Str) (key : Str) : VResult :=
  if startsWith (str "ENT-") (upperStr key) then
    ⟨true, str "enterprise", "legacy_prefix",
      some (.jobj [(str "jti", .jstr uuid), (str "plan", .jstr (str "enterprise"))])⟩
  else if startsWith (str "PRO-") (upperStr key) then
    ⟨true, str "pro", "legacy_prefix",
      some (.jobj [(str "jti", .jstr uuid), (str "plan", .jstr (str "pro"))])⟩
  else
    ⟨false, str "free", "unknown_legacy_key", none⟩

/-- The observable states of the revocation file. -/
inductive RevFile where
  | missing : RevFile
  | unreadable : RevFile
  | parsed : JVal → RevFile

/-- `load_revocations(path)` (lines 27–42 of `validate.py`): `none`
models the fail-closed `None`.  `missing` is a non-existing file;
`unreadable` a file whose read or JSON parse fails.  The `set(revoked)`
construction is modelled by the underlying list, whose membership is the
only observable (a list with unhashable elements would raise in Python;
no claim touches that case). -/
def load_revocations : RevFile → Option (List JVal)
  | .missing => some []
  | .unreadable => none
  | .parsed (.jobj kvs) =>
    match lookupLast kvs (str "revoked_jti") with
    | none => some []
    | some .jnull => some []
    | some (.jarr xs) => some xs
    | some _ => none
  | .parsed _ => none

/-- The signed-token result of `main()` before the legacy fallback
(lines 215–224 of `validate.py`): validate against the public key when
one is configured, else `missing_public_key`. -/
def baseResult (verifyOpt : Option (List Nat → List Nat → Bool))
    (key : Str) (revocations : List JVal) (now : Int) : Except PyExc VResult :=
  match verifyOpt with
  | some verify => validate_signed_token verify key revocations now
  | none => .ok ⟨false, str "free", "missing_public_key", none⟩

/-- The legacy-fallback combination of `main()` (lines 226–233): when the
result failed with `invalid_format` and the flag is enabled, a valid
legacy check replaces the result. -/
def applyLegacy (uuid key : Str) (allowLegacy : Bool) (result : VResult) : VResult :=
  if result.valid = false ∧ result.reason = "invalid_format" ∧ allowLegacy = true then
    (if (validate_legacy uuid key).valid then validate_legacy uuid key else result)
  else result

/-- The CLI entry point `main()` (lines 178–235 of `validate.py`).
`verifyOpt` models `load_public_key` (`none` = missing file or
placeholder); `licenseKeyEnv` the `LICENSE_KEY` environment value;
`allowLegacy` the `--allow-legacy-prefix` flag; `uuid` the UUID the
legacy path would draw.  The returned result is the object printed. -/
def cliMain (verifyOpt : Option (List Nat → List Nat → Bool)) (uuid : Str)
    (licenseKeyEnv : Str) (rev : RevFile) (now : Int) (allowLegacy : Bool) :
    Except PyExc VResult :=
  if (stripStr licenseKeyEnv).isEmpty then
    .ok ⟨false, str "free", "no_key", none⟩
  else
    match load_revocations rev with
    | none => .ok ⟨false, str "free", "revocation_load_error", none⟩
    | some revocations =>
      match baseResult verifyOpt (stripStr licenseKeyEnv) revocations now with
      | .error e => .error e
      | .ok result => .ok (applyLegacy uuid (stripStr licenseKeyEnv) allowLegacy result)

/-- `main()` of `issue_license.py` (lines 76–98): builds the claims dict
in source order, canonically encodes it, signs, and assembles
`SSDL1.<payload>.<signature>`.  `sign` models `private_key.sign`;
`uuid` the fresh `str(uuid.uuid4())`; `now` `int(time.time())`. -/
def issue (sign : List Nat → List Nat) (uuid : Str) (now : Int)
    (plan customer : Str) (days : Nat) (features : List Str) : Str :=
  let baseClaims : List (Str × JVal) :=
    [(str "v", .jint 1), (str "jti", .jstr uuid), (str "plan", .jstr plan),
      (str "sub", .jstr customer), (str "iat", .jint now), (str "nbf", .jint now),
      (str "exp", .jint (now + (days : Int) * 86400))]
  let claims := if features.isEmpty then baseClaims
    else baseClaims ++ [(str "features", .jarr (features.map .jstr))]
  let payload := utf8Encode (dumpsJ (.jobj claims))
  let signature := sign payload
  str "SSDL1." ++ b64urlEncode payload ++ '.' :: b64urlEncode signature

/-- Outcome of the temp-file write sequence in `generate_keypair.py`. -/
structure KeyWriteOutcome where
  tmpLeft : Bool
  removalAttempted : Bool
  errored : Bool
  destWritten : Bool
deriving DecidableEq

/-- Lines 96–107 of `generate_keypair.py`: after `tempfile.mkstemp`
creates the temporary file, `os.fchmod`, the key write and `os.replace`
each may raise; on a raise, `os.unlink(tmp_path)` is attempted with
`OSError` suppressed before the exception propagates.  Each `…Ok` flag
models the corresponding OS call succeeding; `unlinkOk = false` means the
cleanup `unlink` itself raised `OSError`, leaving the file behind.  On
full success `os.replace` consumes the temporary file. -/
def tmpWriteSequence (chmodOk writeOk replaceOk unlinkOk : Bool) : KeyWriteOutcome :=
  if !chmodOk then ⟨!unlinkOk, true, true, false⟩
  else if !writeOk then ⟨!unlinkOk, true, true, false⟩
  else if !replaceOk then ⟨!unlinkOk, true, true, false⟩
  else ⟨false, false, false, true⟩

/-! ### Inversion lemmas for the verifier -/

/-! ### The spec's stage table (C2) -/

/-- A time claim as the spec's stage 6/7 reads it: absent or `null` is
`none`; any other value is coerced with Python `int()` (which can
raise). -/
def specTime (kvs : List (Str × JVal)) (k : Str) : Except PyExc (Option Int) :=
  match lookupLast kvs k with
  | none => .ok none
  | some .jnull => .ok none
  | some v => (pyToInt v).map some

/-- Stage 8 as the spec's table reads it: `jti` absent or not in the
revocation set, else `revoked`; all stages passed means `ok` with
`tier = plan`. -/
def specJti (kvs : List (Str × JVal)) (revoked : List JVal) (tier : Str) :
    Except PyExc VResult :=
  if pyTruthy ((lookupLast kvs (str "jti")).getD .jnull) &&
      strInRevoked (pyStr ((lookupLast kvs (str "jti")).getD .jnull)) revoked then
    .ok ⟨false, str "free", "revoked", some (.jobj kvs)⟩
  else
    .ok ⟨true, tier, "ok", some (.jobj kvs)⟩

/-- Stage 7 as the spec's table reads it: `nbf` absent or `nbf ≤ now`,
else `not_yet_valid`. -/
def specNbf (kvs : List (Str × JVal)) (revoked : List JVal) (now : Int)
    (tier : Str) : Except PyExc VResult :=
  match specTime kvs (str "nbf") with
  | .error e => .error e
  | .ok (some i) =>
    if i > now then .ok ⟨false, str "free", "not_yet_valid", some (.jobj kvs)⟩
    else specJti kvs revoked tier
  | .ok none => specJti kvs revoked tier

/-- Stage 6 as the spec's table reads it: `exp` absent or `exp ≥ now`,
else `expired`. -/
def specExp (kvs : List (Str × JVal)) (revoked : List JVal) (now : Int)
    (tier : Str) : Except PyExc VResult :=
  match specTime kvs (str "exp") with
  | .error e => .error e
  | .ok (some i) =>
    if i < now then .ok ⟨false, str "free", "expired", some (.jobj kvs)⟩
    else specNbf kvs revoked now tier
  | .ok none => specNbf kvs revoked now tier

/-- Stages 5–8 as the spec's table reads them, on an authenticated
object payload (stage 5 on the lowercased rendered plan — the first
amendment C2's counterexample forces). -/
def specPolicy (kvs : List (Str × JVal)) (revoked : List JVal) (now : Int) :
    Except PyExc VResult :=
  if ¬ (planOf kvs = str "free" ∨ planOf kvs = str "pro" ∨
      planOf kvs = str "enterprise") then
    .ok ⟨false, str "free", "invalid_plan", some (.jobj kvs)⟩
  else specExp kvs revoked now (planOf kvs)

/-- Modelled from the spec's stage table for the Verifier (the C2 claim),
with the two amendments the code forces: stage 5 tests the *lowercased
string form* of the plan claim, and — on an authenticated payload that is
not a JSON object, or whose `exp`/`nbf` is not `int()`-coercible — the
verifier raises instead of returning a result. -/
def specStages (verify : List Nat → List Nat → Bool) (token : Str)
    (revoked : List JVal) (now : Int) : Except PyExc VResult :=
  if ¬ ((splitCh '.' token).length = 3 ∧
      (splitCh '.' token).headD [] = str "SSDL1") then
    .ok ⟨false, str "free", "invalid_format", none⟩
  else
    match b64urlDecode ((splitCh '.' token).getD 1 []),
        b64urlDecode ((splitCh '.' token).getD 2 []) with
    | some payload, some signature =>
      if ¬ (verify signature payload = true) then
        .ok ⟨false, str "free", "invalid_signature", none⟩
      else
        match (utf8Decode payload).bind parseJson with
        | none => .ok ⟨false, str "free", "invalid_payload", none⟩
        | some (.jobj kvs) => specPolicy kvs revoked now
        | some _ => .error .attributeError
    | _, _ => .ok ⟨false, str "free", "invalid_encoding", none⟩

/-! ### Round-trip lemmas: canonical serialisation parses back -/

/-! ### Theorems -/

theorem b64Val_b64Char (n : Nat) (h : n < 64) : b64Val (b64Char n) = some n := by
  interval_cases n <;> rfl

theorem b64Char_ne_dot (n : Nat) : b64Char n ≠ '.' := by
  by_cases h : n < 64
  · interval_cases n <;> decide
  · have hlen : b64Alphabet.length = 64 := rfl
    have : b64Char n = 'A' := by
      unfold b64Char
      apply List.getD_eq_default
      omega
    simp [this]

theorem b64urlEncode_ne_dot (bs : List Nat) : ∀ c ∈ b64urlEncode bs, c ≠ '.' := by
  induction bs using b64urlEncode.induct with
  | case1 => simp [b64urlEncode]
  | case2 a => simp [b64urlEncode]; exact ⟨b64Char_ne_dot _, b64Char_ne_dot _⟩
  | case3 a b =>
    simp [b64urlEncode]
    exact ⟨b64Char_ne_dot _, b64Char_ne_dot _, b64Char_ne_dot _⟩
  | case4 a b c rest ih =>
    simp only [b64urlEncode]
    intro x hx
    simp only [List.mem_cons] at hx
    rcases hx with rfl | rfl | rfl | rfl | hx
    · exact b64Char_ne_dot _
    · exact b64Char_ne_dot _
    · exact b64Char_ne_dot _
    · exact b64Char_ne_dot _
    · exact ih x hx

theorem b64urlDecode_encode (bs : List Nat) (h : ∀ b ∈ bs, b < 256) :
    b64urlDecode (b64urlEncode bs) = some bs := by
  induction bs using b64urlEncode.induct with
  | case1 => rfl
  | case2 a =>
    have ha : a < 256 := h a (by simp)
    simp only [b64urlEncode, b64urlDecode]
    rw [b64Val_b64Char _ (by omega), b64Val_b64Char _ (by omega)]
    simp only [Option.bind_eq_bind, Option.some_bind, Option.some.injEq,
      List.cons.injEq, and_true]
    omega
  | case3 a b =>
    have ha : a < 256 := h a (by simp)
    have hb : b < 256 := h b (by simp)
    simp only [b64urlEncode, b64urlDecode]
    rw [b64Val_b64Char _ (by omega), b64Val_b64Char _ (by omega),
      b64Val_b64Char _ (by omega)]
    simp only [Option.bind_eq_bind, Option.some_bind, Option.some.injEq,
      List.cons.injEq, and_true]
    constructor <;> omega
  | case4 a b c rest ih =>
    have ha : a < 256 := h a (by simp)
    have hb : b < 256 := h b (by simp)
    have hc : c < 256 := h c (by simp)
    have hrest : ∀ x ∈ rest, x < 256 := fun x hx => h x (by simp [hx])
    simp only [b64urlEncode, b64urlDecode]
    rw [b64Val_b64Char _ (by omega), b64Val_b64Char _ (by omega),
      b64Val_b64Char _ (by omega), b64Val_b64Char _ (by omega), ih hrest]
    simp only [Option.bind_eq_bind, Option.some_bind, Option.some.injEq,
      List.cons.injEq, and_true]
    refine ⟨by omega, by omega, by omega⟩

/-- A scalar value is below `0x110000`. -/
theorem char_toNat_lt (c : Char) : c.toNat < 1114112 := by
  have h := c.valid
  simp only [UInt32.isValidChar, Nat.isValidChar] at h
  show c.val.toNat < 1114112
  omega

/-- Every byte produced by the UTF-8 encoder is below 256. -/
theorem utf8EncodeChar_lt_256 (c : Char) : ∀ b ∈ utf8EncodeChar c, b < 256 := by
  have hv := char_toNat_lt c
  unfold utf8EncodeChar
  split
  · simp; omega
  · split
    · simp; constructor <;> omega
    · split
      · simp
        refine ⟨by omega, by omega, by omega⟩
      · simp
        refine ⟨by omega, by omega, by omega, by omega⟩

theorem utf8Encode_lt_256 (s : Str) : ∀ b ∈ utf8Encode s, b < 256 := by
  induction s with
  | nil => simp [utf8Encode]
  | cons c rest ih =>
    simp only [utf8Encode, List.mem_append]
    intro b hb
    rcases hb with hb | hb
    · exact utf8EncodeChar_lt_256 c b hb
    · exact ih b hb

/-- The ascii step of `utf8Step`. -/
theorem utf8Step_ascii (b : Nat) (rest : List Nat) (hb : b < 128) :
    utf8Step (b :: rest) = some (Char.ofNat b, rest) := by
  simp [utf8Step, hb]

/-- Fuel-generalised ASCII round trip for the decoding loop. -/
theorem utf8DecodeLoop_encode_ascii (s : Str) (h : ∀ c ∈ s, c.toNat < 128) :
    ∀ fuel, (utf8Encode s).length ≤ fuel →
      utf8DecodeLoop fuel (utf8Encode s) = some s := by
  induction s with
  | nil => intro fuel _; cases fuel <;> rfl
  | cons c rest ih =>
    intro fuel hfuel
    have hc : c.toNat < 128 := h c (by simp)
    have hrest : ∀ x ∈ rest, x.toNat < 128 := fun x hx => h x (by simp [hx])
    have he : utf8EncodeChar c = [c.toNat] := by
      rw [utf8EncodeChar, if_pos hc]
    rw [utf8Encode, he] at hfuel ⊢
    simp only [List.singleton_append, List.length_cons] at hfuel ⊢
    match fuel, hfuel with
    | fuel + 1, hfuel =>
      rw [utf8DecodeLoop, utf8Step_ascii _ _ hc]
      dsimp only
      rw [ih hrest fuel (by omega)]
      simp [Char.ofNat_toNat]

/-- Decoding the encoding of an ASCII string recovers it (the canonical
JSON payload is always ASCII because `json.dumps` defaults to
`ensure_ascii=True`). -/
theorem utf8Decode_encode_ascii (s : Str) (h : ∀ c ∈ s, c.toNat < 128) :
    utf8Decode (utf8Encode s) = some s :=
  utf8DecodeLoop_encode_ascii s h _ le_rfl

/-- Inversion for stage 8: the claims are echoed; failure is `revoked`
with tier `free`; success is `ok` with tier `plan`. -/
theorem stageJti_inv (claims : JVal) (revoked : List JVal) (plan : Str)
    (r : VResult) (h : stageJti claims revoked plan = .ok r) :
    r.claims = some claims ∧
      ((r.valid = false ∧ r.tier = str "free" ∧ r.reason = "revoked") ∨
       (r.valid = true ∧ r.tier = plan ∧ r.reason = "ok")) := by
  unfold stageJti at h
  cases hj : pyGet claims (str "jti") with
  | error e => rw [hj] at h; cases h
  | ok jtiOpt =>
    rw [hj] at h
    simp only at h
    split at h <;> (cases h; simp)

/-- Inversion for stages 7–8. -/
theorem stageNbf_inv (claims : JVal) (revoked : List JVal) (now : Int)
    (plan : Str) (r : VResult) (h : stageNbf claims revoked now plan = .ok r) :
    r.claims = some claims ∧
      ((r.valid = false ∧ r.tier = str "free" ∧
         (r.reason = "not_yet_valid" ∨ r.reason = "revoked")) ∨
       (r.valid = true ∧ r.tier = plan ∧ r.reason = "ok")) := by
  unfold stageNbf at h
  cases hn : pyGet claims (str "nbf") with
  | error e => rw [hn] at h; cases h
  | ok nbfOpt =>
    rw [hn] at h
    simp only at h
    split at h
    · have := stageJti_inv claims revoked plan r h
      tauto
    · cases hi : pyToInt (nbfOpt.getD .jnull) with
      | error e => rw [hi] at h; cases h
      | ok i =>
        rw [hi] at h
        simp only at h
        split at h
        · cases h; simp
        · have := stageJti_inv claims revoked plan r h
          tauto

/-- Inversion for stages 6–8. -/
theorem stageExp_inv (claims : JVal) (revoked : List JVal) (now : Int)
    (plan : Str) (r : VResult) (h : stageExp claims revoked now plan = .ok r) :
    r.claims = some claims ∧
      ((r.valid = false ∧ r.tier = str "free" ∧
         (r.reason = "expired" ∨ r.reason = "not_yet_valid" ∨
          r.reason = "revoked")) ∨
       (r.valid = true ∧ r.tier = plan ∧ r.reason = "ok")) := by
  unfold stageExp at h
  cases hx : pyGet claims (str "exp") with
  | error e => rw [hx] at h; cases h
  | ok expOpt =>
    rw [hx] at h
    simp only at h
    split at h
    · have := stageNbf_inv claims revoked now plan r h
      tauto
    · cases hi : pyToInt (expOpt.getD .jnull) with
      | error e => rw [hi] at h; cases h
      | ok i =>
        rw [hi] at h
        simp only at h
        split at h
        · cases h; simp
        · have := stageNbf_inv claims revoked now plan r h
          tauto

/-- Inversion for stages 5–8: the claims are always echoed, failures
carry tier `free` and one of the four policy reasons, success carries
reason `ok` and the lowercased rendered plan as tier, which is one of the
three recognised words. -/
theorem validateClaims_inv (claims : JVal) (revoked : List JVal) (now : Int)
    (r : VResult) (h : validateClaims claims revoked now = .ok r) :
    r.claims = some claims ∧
      ((r.valid = false ∧ r.tier = str "free" ∧
         (r.reason = "invalid_plan" ∨ r.reason = "expired" ∨
          r.reason = "not_yet_valid" ∨ r.reason = "revoked")) ∨
       (r.valid = true ∧ r.reason = "ok" ∧
         ∃ kvs, claims = .jobj kvs ∧ r.tier = planOf kvs ∧
           (r.tier = str "free" ∨ r.tier = str "pro" ∨
            r.tier = str "enterprise"))) := by
  cases claims with
  | jobj kvs =>
    simp only [validateClaims] at h
    by_cases hp : planOf kvs = str "free" ∨ planOf kvs = str "pro" ∨
        planOf kvs = str "enterprise"
    · rw [if_neg (not_not_intro hp)] at h
      have hinv := stageExp_inv _ _ _ _ r h
      rcases hinv with ⟨hcl, hfail | hsucc⟩
      · exact ⟨hcl, Or.inl ⟨hfail.1, hfail.2.1, by tauto⟩⟩
      · refine ⟨hcl, Or.inr ⟨hsucc.1, hsucc.2.2, kvs, rfl, hsucc.2.1, ?_⟩⟩
        rw [hsucc.2.1]
        exact hp
    · rw [if_pos hp] at h
      cases h
      exact ⟨rfl, Or.inl ⟨rfl, rfl, Or.inl rfl⟩⟩
  | jnull => cases h
  | jbool b => cases h
  | jint n => cases h
  | jstr s => cases h
  | jarr xs => cases h

/-- Inversion for the whole verifier: any returned result is either a
pre-payload rejection (stages 1–4: `valid=false`, tier `free`, no claims
key) or an outcome of stages 5–8 on some parsed payload. -/
theorem validate_signed_token_inv (verify : List Nat → List Nat → Bool)
    (token : Str) (revoked : List JVal) (now : Int) (r : VResult)
    (h : validate_signed_token verify token revoked now = .ok r) :
    (r.valid = false ∧ r.tier = str "free" ∧ r.claims = none ∧
      (r.reason = "invalid_format" ∨ r.reason = "invalid_encoding" ∨
       r.reason = "invalid_signature" ∨ r.reason = "invalid_payload")) ∨
    (∃ claims, validateClaims claims revoked now = .ok r) := by
  unfold validate_signed_token at h
  split at h
  · split at h
    · cases h
      exact Or.inl ⟨rfl, rfl, rfl, Or.inl rfl⟩
    · split at h
      · split at h
        · cases h
          exact Or.inl ⟨rfl, rfl, rfl, Or.inr (Or.inr (Or.inl rfl))⟩
        · split at h
          · cases h
            exact Or.inl ⟨rfl, rfl, rfl, Or.inr (Or.inr (Or.inr rfl))⟩
          · rename_i claims heq
            exact Or.inr ⟨claims, h⟩
      · cases h
        exact Or.inl ⟨rfl, rfl, rfl, Or.inr (Or.inl rfl)⟩
  · cases h
    exact Or.inl ⟨rfl, rfl, rfl, Or.inl rfl⟩

/-- A failed verifier result always has tier `free`. -/
theorem validate_false_tier_free (verify : List Nat → List Nat → Bool)
    (token : Str) (revoked : List JVal) (now : Int) (r : VResult)
    (h : validate_signed_token verify token revoked now = .ok r)
    (hv : r.valid = false) : r.tier = str "free" := by
  rcases validate_signed_token_inv verify token revoked now r h with
    ⟨_, ht, _, _⟩ | ⟨claims, hc⟩
  · exact ht
  · rcases validateClaims_inv claims revoked now r hc with
      ⟨_, ⟨_, ht, _⟩ | ⟨hvT, _, _⟩⟩
    · exact ht
    · rw [hv] at hvT
      cases hvT

/-- A failed base result (validate or `missing_public_key`) has tier
`free`. -/
theorem baseResult_false_tier_free (verifyOpt : Option (List Nat → List Nat → Bool))
    (key : Str) (revocations : List JVal) (now : Int) (r : VResult)
    (h : baseResult verifyOpt key revocations now = .ok r)
    (hv : r.valid = false) : r.tier = str "free" := by
  cases verifyOpt with
  | some verify => exact validate_false_tier_free verify key revocations now r h hv
  | none => cases h; rfl

/-- The legacy combination either keeps the base result or substitutes a
valid legacy result. -/
theorem applyLegacy_cases (uuid key : Str) (flag : Bool) (res : VResult) :
    applyLegacy uuid key flag res = res ∨
      (applyLegacy uuid key flag res = validate_legacy uuid key ∧
        (validate_legacy uuid key).valid = true) := by
  unfold applyLegacy
  split
  · split
    · rename_i hlg
      exact Or.inr ⟨rfl, hlg⟩
    · exact Or.inl rfl
  · exact Or.inl rfl

/-- C3: every result with `valid = false` — across `validate_signed_token`,
`validate_legacy_prefix`, and the CLI entry point — has tier exactly
`"free"`; the tier of a rejection is never taken from token content. -/
theorem claim_C3_invalid_results_have_tier_free :
    (∀ (verify : List Nat → List Nat → Bool) (token : Str) (revoked : List JVal)
        (now : Int) (r : VResult),
      validate_signed_token verify token revoked now = .ok r →
      r.valid = false → r.tier = str "free") ∧
    (∀ uuid key : Str,
      (validate_legacy uuid key).valid = false →
      (validate_legacy uuid key).tier = str "free") ∧
    (∀ (verifyOpt : Option (List Nat → List Nat → Bool)) (uuid licenseKey : Str)
        (rev : RevFile) (now : Int) (flag : Bool) (r : VResult),
      cliMain verifyOpt uuid licenseKey rev now flag = .ok r →
      r.valid = false → r.tier = str "free") := by
  refine ⟨validate_false_tier_free, ?_, ?_⟩
  · intro uuid key hv
    unfold validate_legacy at hv ⊢
    split_ifs at hv ⊢
    all_goals simp_all
  · intro verifyOpt uuid licenseKey rev now flag r h hv
    unfold cliMain at h
    split at h
    · cases h; rfl
    · split at h
      · cases h; rfl
      · rename_i revocations hrev
        cases hbase : baseResult verifyOpt (stripStr licenseKey) revocations now with
        | error e => rw [hbase] at h; cases h
        | ok res =>
          rw [hbase] at h
          simp only at h
          cases h
          rcases applyLegacy_cases uuid (stripStr licenseKey) flag res with
            heq | ⟨heq, hval⟩
          · rw [heq] at hv ⊢
            exact baseResult_false_tier_free verifyOpt _ revocations now res hbase hv
          · rw [heq] at hv
            rw [hv] at hval
            cases hval

/-- Witness for C3 at a concrete rejected token. -/
theorem claim_C3_witness :
    validate_signed_token (fun _ _ => true) (str "x") [] 0 =
        .ok ⟨false, str "free", "invalid_format", none⟩ ∧
      (⟨false, str "free", "invalid_format", none⟩ : VResult).tier = str "free" :=
  ⟨rfl, claim_C3_invalid_results_have_tier_free.1 (fun _ _ => true) (str "x") [] 0
    ⟨false, str "free", "invalid_format", none⟩ rfl rfl⟩

/-- C6: when the verifier rejects at a stage up to and including signature
verification, the result object carries no `claims` key — claim content is
never surfaced on an unauthenticated payload. -/
theorem claim_C6_no_claims_before_signature
    (verify : List Nat → List Nat → Bool) (token : Str) (revoked : List JVal)
    (now : Int) (r : VResult)
    (h : validate_signed_token verify token revoked now = .ok r)
    (hr : r.reason = "invalid_format" ∨ r.reason = "invalid_encoding" ∨
      r.reason = "invalid_signature") : r.claims = none := by
  rcases validate_signed_token_inv verify token revoked now r h with
    ⟨_, _, hcl, _⟩ | ⟨claims, hc⟩
  · exact hcl
  · rcases validateClaims_inv claims revoked now r hc with
      ⟨_, ⟨_, _, hre⟩ | ⟨_, hre, _⟩⟩
    · rcases hr with h1 | h1 | h1 <;> rcases hre with h2 | h2 | h2 | h2 <;>
        (rw [h1] at h2; exact absurd h2 (by decide))
    · rcases hr with h1 | h1 | h1 <;> (rw [h1] at hre; exact absurd hre (by decide))

/-- Witness for C6 at a concretely tampered token. -/
theorem claim_C6_witness :
    validate_signed_token (fun _ _ => false) (str "SSDL1.eyJhIjoxfQ.c2ln") [] 0 =
        .ok ⟨false, str "free", "invalid_signature", none⟩ ∧
      (⟨false, str "free", "invalid_signature", none⟩ : VResult).claims = none :=
  ⟨rfl, claim_C6_no_claims_before_signature (fun _ _ => false)
    (str "SSDL1.eyJhIjoxfQ.c2ln") [] 0 ⟨false, str "free", "invalid_signature", none⟩
    rfl (Or.inr (Or.inr rfl))⟩

/-- C4 counterexample: a revocation file `{"revoked_jti": null}` has the
`revoked_jti` field present with a non-list value, yet `load_revocations`
returns the empty set rather than the fail-closed marker (`data.get`
cannot distinguish a `null` value from an absent key). -/
theorem claim_C4_counterexample :
    load_revocations (.parsed (.jobj [(str "revoked_jti", .jnull)])) = some [] ∧
      (some ([] : List JVal) : Option (List JVal)) ≠ none :=
  ⟨rfl, Option.some_ne_none _⟩

/-- C4 (amended): `load_revocations` returns the empty set on a missing
file, and fails closed on unparsable content, a non-object document, or a
`revoked_jti` field that is neither `null` nor a list (`null` is treated
like an absent field); when it fails closed, the CLI rejects every
non-empty token with `revocation_load_error` regardless of the public key
and of the token's own validity. -/
theorem claim_C4_fail_closed :
    load_revocations .missing = some [] ∧
    load_revocations .unreadable = none ∧
    (∀ v : JVal, (∀ kvs, v ≠ .jobj kvs) → load_revocations (.parsed v) = none) ∧
    (∀ (kvs : List (Str × JVal)) (w : JVal),
      lookupLast kvs (str "revoked_jti") = some w → w ≠ .jnull →
      (∀ xs, w ≠ .jarr xs) → load_revocations (.parsed (.jobj kvs)) = none) ∧
    (∀ (verifyOpt : Option (List Nat → List Nat → Bool)) (uuid licenseKey : Str)
        (rev : RevFile) (now : Int) (flag : Bool),
      load_revocations rev = none → (stripStr licenseKey).isEmpty = false →
      cliMain verifyOpt uuid licenseKey rev now flag =
        .ok ⟨false, str "free", "revocation_load_error", none⟩) := by
  refine ⟨rfl, rfl, ?_, ?_, ?_⟩
  · intro v hv
    cases v with
    | jobj kvs => exact absurd rfl (hv kvs)
    | jnull => rfl
    | jbool b => rfl
    | jint n => rfl
    | jstr s => rfl
    | jarr xs => rfl
  · intro kvs w hlook hnull harr
    simp only [load_revocations]
    rw [hlook]
    cases w with
    | jnull => exact absurd rfl hnull
    | jarr xs => exact absurd rfl (harr xs)
    | jobj o => rfl
    | jbool b => rfl
    | jint n => rfl
    | jstr s => rfl
  · intro verifyOpt uuid licenseKey rev now flag hrev hkey
    unfold cliMain
    rw [hkey, hrev]
    rfl

/-- Witness for C4 at concrete corrupted revocation files. -/
theorem claim_C4_witness :
    load_revocations (.parsed (.jobj [(str "revoked_jti", .jint 5)])) = none ∧
      cliMain (some (fun _ _ => true)) (str "u") (str "tok") .unreadable 0 false =
        .ok ⟨false, str "free", "revocation_load_error", none⟩ :=
  ⟨claim_C4_fail_closed.2.2.2.1 [(str "revoked_jti", .jint 5)] (.jint 5) rfl
      (fun h => JVal.noConfusion h) (fun _ h => JVal.noConfusion h),
    claim_C4_fail_closed.2.2.2.2 (some (fun _ _ => true)) (str "u") (str "tok")
      .unreadable 0 false rfl rfl⟩

/-- C8 (the code, not the claim): a validly-signed token whose payload is
`{"exp":"abc","plan":"pro"}` makes the verifier raise `ValueError` from
`int(exp)` instead of returning a `{valid:false, ...}` result. -/
theorem claim_C8_verifier_raises :
    validate_signed_token (fun _ _ => true)
      (str "SSDL1.eyJleHAiOiJhYmMiLCJwbGFuIjoicHJvIn0.") [] 0 =
      .error .valueError := rfl

/-- C9 counterexample: when the key write fails and the cleanup `unlink`
itself fails with `OSError` (which the code suppresses), the error
propagates with the temporary file left behind. -/
theorem claim_C9_counterexample :
    (tmpWriteSequence true false true false).errored = true ∧
      (tmpWriteSequence true false true false).tmpLeft = true := ⟨rfl, rfl⟩

/-- C9 (amended): on every failure path after the temporary file is
created, its removal is attempted before the error propagates, and the
temporary file is gone whenever that removal itself does not fail. -/
theorem claim_C9_cleanup (chmodOk writeOk replaceOk unlinkOk : Bool)
    (h : (tmpWriteSequence chmodOk writeOk replaceOk unlinkOk).errored = true) :
    (tmpWriteSequence chmodOk writeOk replaceOk unlinkOk).removalAttempted = true ∧
      (unlinkOk = true →
        (tmpWriteSequence chmodOk writeOk replaceOk unlinkOk).tmpLeft = false) := by
  cases chmodOk <;> cases writeOk <;> cases replaceOk <;> cases unlinkOk <;>
    simp_all [tmpWriteSequence]

/-- Witness for C9 at a concrete failing write with successful cleanup. -/
theorem claim_C9_witness :
    (tmpWriteSequence true false true true).removalAttempted = true ∧
      (true = true → (tmpWriteSequence true false true true).tmpLeft = false) :=
  claim_C9_cleanup true false true true rfl

/-- C10: the legacy path embeds the freshly drawn UUID as the `jti` of
its claims, so two invocations that draw different UUIDs return different
result objects — the legacy path is not a deterministic function of the
credential alone.  (By contrast, `validate_signed_token` takes no
entropy: it is by construction a function of token, key, revocation set
and clock only.) -/
theorem claim_C10_legacy_embeds_fresh_uuid :
    (∀ uuid key : Str, (validate_legacy uuid key).valid = true →
      ∃ plan : Str, (validate_legacy uuid key).claims =
        some (.jobj [(str "jti", .jstr uuid), (str "plan", .jstr plan)])) ∧
    (∀ u1 u2 key : Str, u1 ≠ u2 → (validate_legacy u1 key).valid = true →
      validate_legacy u1 key ≠ validate_legacy u2 key) := by
  constructor
  · intro uuid key hv
    unfold validate_legacy at hv ⊢
    split_ifs at hv ⊢
    · exact ⟨str "enterprise", rfl⟩
    · exact ⟨str "pro", rfl⟩
  · intro u1 u2 key hne hv heq
    unfold validate_legacy at hv heq
    split_ifs at hv heq
    · exact hne (by simpa using congrArg VResult.claims heq)
    · exact hne (by simpa using congrArg VResult.claims heq)

/-- Witness for C10 at a concrete legacy credential and distinct UUIDs. -/
theorem claim_C10_witness :
    (∃ plan : Str, (validate_legacy (str "u1") (str "ENT-1")).claims =
      some (.jobj [(str "jti", .jstr (str "u1")), (str "plan", .jstr plan)])) ∧
      validate_legacy (str "u1") (str "ENT-1") ≠ validate_legacy (str "u2") (str "ENT-1") :=
  ⟨claim_C10_legacy_embeds_fresh_uuid.1 (str "u1") (str "ENT-1") rfl,
    claim_C10_legacy_embeds_fresh_uuid.2 (str "u1") (str "u2") (str "ENT-1")
      (by decide) rfl⟩

/-- C7 counterexample: the payload `{"plan":"PRO"}` has a plan claim that
is not one of the three recognised values `free`/`pro`/`enterprise`, yet
a validly-signed token carrying it is accepted with tier `pro` — the code
lowercases the plan before the gate. -/
theorem claim_C7_counterexample :
    validate_signed_token (fun _ _ => true) (str "SSDL1.eyJwbGFuIjoiUFJPIn0.") [] 0 =
      .ok ⟨true, str "pro", "ok", some (.jobj [(str "plan", .jstr (str "PRO"))])⟩ := rfl

/-- C7 (amended): the plan gate operates on the lowercased string form of
the plan claim: every successful validation carries a payload whose
lowercased rendered plan is one of `free`/`pro`/`enterprise`, and the
granted tier is exactly that lowercased value. -/
theorem claim_C7_plan_gate (verify : List Nat → List Nat → Bool)
    (token : Str) (revoked : List JVal) (now : Int) (r : VResult)
    (h : validate_signed_token verify token revoked now = .ok r)
    (hv : r.valid = true) :
    ∃ kvs, r.claims = some (.jobj kvs) ∧ r.tier = planOf kvs ∧
      (planOf kvs = str "free" ∨ planOf kvs = str "pro" ∨
        planOf kvs = str "enterprise") := by
  rcases validate_signed_token_inv verify token revoked now r h with
    ⟨hvF, _, _, _⟩ | ⟨claims, hc⟩
  · rw [hv] at hvF
    cases hvF
  · rcases validateClaims_inv claims revoked now r hc with
      ⟨hcl, ⟨hvF, _, _⟩ | ⟨_, _, kvs, hobj, htier, hmem⟩⟩
    · rw [hv] at hvF
      cases hvF
    · refine ⟨kvs, ?_, htier, ?_⟩
      · rw [hcl, hobj]
      · rw [← htier]
        exact hmem

/-- Witness for C7 at the concretely accepted `{"plan":"PRO"}` token. -/
theorem claim_C7_witness :
    ∃ kvs, (⟨true, str "pro", "ok",
        some (.jobj [(str "plan", .jstr (str "PRO"))])⟩ : VResult).claims =
          some (.jobj kvs) ∧
      (⟨true, str "pro", "ok",
        some (.jobj [(str "plan", .jstr (str "PRO"))])⟩ : VResult).tier = planOf kvs ∧
      (planOf kvs = str "free" ∨ planOf kvs = str "pro" ∨
        planOf kvs = str "enterprise") :=
  claim_C7_plan_gate (fun _ _ => true) (str "SSDL1.eyJwbGFuIjoiUFJPIn0.") [] 0
    ⟨true, str "pro", "ok", some (.jobj [(str "plan", .jstr (str "PRO"))])⟩ rfl rfl

/-- A string beginning with `PRO-` does not begin with `ENT-`. -/
theorem startsWith_PRO_not_ENT (s : Str)
    (h : startsWith (str "PRO-") s = true) :
    startsWith (str "ENT-") s = false := by
  cases s with
  | nil => exact absurd h (by decide)
  | cons c cs =>
    have h4 : str "PRO-" = 'P' :: str "RO-" := rfl
    rw [h4] at h
    simp only [startsWith, Bool.and_eq_true, decide_eq_true_eq] at h
    have h5 : str "ENT-" = 'E' :: str "NT-" := rfl
    rw [h5, ← h.1]
    simp [startsWith]

/-- A credential beginning with `SSDL1` never passes the legacy check. -/
theorem legacy_invalid_of_SSDL1 (uuid key : Str)
    (h : startsWith (str "SSDL1") key = true) :
    (validate_legacy uuid key).valid = false := by
  cases key with
  | nil => exact absurd h (by decide)
  | cons c cs =>
    have h5 : str "SSDL1" = 'S' :: str "SDL1" := rfl
    rw [h5] at h
    simp only [startsWith, Bool.and_eq_true, decide_eq_true_eq] at h
    have hc : c = 'S' := h.1.symm
    subst hc
    have hup : upperStr ('S' :: cs) = 'S' :: upperStr cs := rfl
    have hent : startsWith (str "ENT-") (upperStr ('S' :: cs)) = false := by
      rw [hup]
      have h6 : str "ENT-" = 'E' :: str "NT-" := rfl
      rw [h6]
      simp [startsWith]
    have hpro : startsWith (str "PRO-") (upperStr ('S' :: cs)) = false := by
      rw [hup]
      have h7 : str "PRO-" = 'P' :: str "RO-" := rfl
      rw [h7]
      simp [startsWith]
    unfold validate_legacy
    rw [hent, hpro]
    rfl

/-- When the legacy check fails, the fallback flag cannot change the
final result. -/
theorem applyLegacy_flag_of_invalid (uuid key : Str) (r : VResult)
    (h : (validate_legacy uuid key).valid = false) (f1 f2 : Bool) :
    applyLegacy uuid key f1 r = applyLegacy uuid key f2 r := by
  unfold applyLegacy
  split_ifs <;> simp_all

/-- With a non-empty key and a readable revocation file, the CLI is the
legacy combination applied to the base result. -/
theorem cliMain_ok_unfold (verifyOpt : Option (List Nat → List Nat → Bool))
    (uuid licenseKeyEnv : Str) (rev : RevFile) (now : Int) (allowLegacy : Bool)
    (revocations : List JVal)
    (hkey : (stripStr licenseKeyEnv).isEmpty = false)
    (hrev : load_revocations rev = some revocations) :
    cliMain verifyOpt uuid licenseKeyEnv rev now allowLegacy =
      match baseResult verifyOpt (stripStr licenseKeyEnv) revocations now with
      | .error e => .error e
      | .ok result =>
        .ok (applyLegacy uuid (stripStr licenseKeyEnv) allowLegacy result) := by
  unfold cliMain
  rw [hrev, if_neg (by simp [hkey])]

/-- C5: with the fallback disabled (the default) a bare `ENT-1234` is
rejected `invalid_format`; with it enabled, a credential whose signed
validation failed with `invalid_format` and which begins (after the
`upper()` normalisation) with `ENT-` (resp. `PRO-`) yields a valid
`enterprise` (resp. `pro`) result with reason `legacy_prefix`; and for a
credential beginning with `SSDL1` the flag makes no difference at all —
the fallback never activates. -/
theorem claim_C5_legacy_fallback :
    (∀ (vf : List Nat → List Nat → Bool) (uuid : Str) (rev : RevFile)
        (revocations : List JVal) (now : Int),
      load_revocations rev = some revocations →
      cliMain (some vf) uuid (str "ENT-1234") rev now false =
        .ok ⟨false, str "free", "invalid_format", none⟩) ∧
    (∀ (verifyOpt : Option (List Nat → List Nat → Bool)) (uuid key : Str)
        (rev : RevFile) (revocations : List JVal) (now : Int),
      load_revocations rev = some revocations →
      (stripStr key).isEmpty = false →
      baseResult verifyOpt (stripStr key) revocations now =
        .ok ⟨false, str "free", "invalid_format", none⟩ →
      startsWith (str "ENT-") (upperStr (stripStr key)) = true →
      cliMain verifyOpt uuid key rev now true =
        .ok ⟨true, str "enterprise", "legacy_prefix",
          some (.jobj [(str "jti", .jstr uuid),
            (str "plan", .jstr (str "enterprise"))])⟩) ∧
    (∀ (verifyOpt : Option (List Nat → List Nat → Bool)) (uuid key : Str)
        (rev : RevFile) (revocations : List JVal) (now : Int),
      load_revocations rev = some revocations →
      (stripStr key).isEmpty = false →
      baseResult verifyOpt (stripStr key) revocations now =
        .ok ⟨false, str "free", "invalid_format", none⟩ →
      startsWith (str "PRO-") (upperStr (stripStr key)) = true →
      cliMain verifyOpt uuid key rev now true =
        .ok ⟨true, str "pro", "legacy_prefix",
          some (.jobj [(str "jti", .jstr uuid),
            (str "plan", .jstr (str "pro"))])⟩) ∧
    (∀ (verifyOpt : Option (List Nat → List Nat → Bool)) (uuid key : Str)
        (rev : RevFile) (now : Int),
      startsWith (str "SSDL1") (stripStr key) = true →
      cliMain verifyOpt uuid key rev now true =
        cliMain verifyOpt uuid key rev now false) := by
  refine ⟨?_, ?_, ?_, ?_⟩
  · intro vf uuid rev revocations now hrev
    rw [cliMain_ok_unfold (some vf) uuid (str "ENT-1234") rev now false
      revocations rfl hrev]
    rfl
  · intro verifyOpt uuid key rev revocations now hrev hkey hbase hent
    rw [cliMain_ok_unfold verifyOpt uuid key rev now true revocations hkey hrev,
      hbase]
    show Except.ok (applyLegacy uuid (stripStr key) true
      ⟨false, str "free", "invalid_format", none⟩) = _
    unfold applyLegacy validate_legacy
    rw [hent]
    simp
  · intro verifyOpt uuid key rev revocations now hrev hkey hbase hpro
    have hent := startsWith_PRO_not_ENT _ hpro
    rw [cliMain_ok_unfold verifyOpt uuid key rev now true revocations hkey hrev,
      hbase]
    show Except.ok (applyLegacy uuid (stripStr key) true
      ⟨false, str "free", "invalid_format", none⟩) = _
    unfold applyLegacy validate_legacy
    rw [hent, hpro]
    simp
  · intro verifyOpt uuid key rev now hss
    cases hrev : load_revocations rev with
    | none =>
      unfold cliMain
      rw [hrev]
    | some revocations =>
      cases hB : (stripStr key).isEmpty with
      | true =>
        unfold cliMain
        rw [hB]
        rfl
      | false =>
        rw [cliMain_ok_unfold verifyOpt uuid key rev now true revocations hB hrev,
          cliMain_ok_unfold verifyOpt uuid key rev now false revocations hB hrev]
        cases hbase : baseResult verifyOpt (stripStr key) revocations now with
        | error e => rfl
        | ok res =>
          simp only
          rw [applyLegacy_flag_of_invalid uuid (stripStr key) res
            (legacy_invalid_of_SSDL1 uuid (stripStr key) hss) true false]

/-- Witness for C5 at concrete credentials. -/
theorem claim_C5_witness :
    cliMain (some (fun _ _ => true)) (str "u") (str "ENT-1234") .missing 0 false =
        .ok ⟨false, str "free", "invalid_format", none⟩ ∧
      cliMain (some (fun _ _ => true)) (str "u") (str "ENT-1234") .missing 0 true =
        .ok ⟨true, str "enterprise", "legacy_prefix",
          some (.jobj [(str "jti", .jstr (str "u")),
            (str "plan", .jstr (str "enterprise"))])⟩ ∧
      cliMain (some (fun _ _ => true)) (str "u") (str "pro-77") .missing 0 true =
        .ok ⟨true, str "pro", "legacy_prefix",
          some (.jobj [(str "jti", .jstr (str "u")),
            (str "plan", .jstr (str "pro"))])⟩ ∧
      cliMain (some (fun _ _ => true)) (str "u") (str "SSDL1.bad.bad") .missing 0 true =
        cliMain (some (fun _ _ => true)) (str "u") (str "SSDL1.bad.bad") .missing 0 false :=
  ⟨claim_C5_legacy_fallback.1 (fun _ _ => true) (str "u") .missing [] 0 rfl,
    claim_C5_legacy_fallback.2.1 (some (fun _ _ => true)) (str "u") (str "ENT-1234")
      .missing [] 0 rfl rfl rfl rfl,
    claim_C5_legacy_fallback.2.2.1 (some (fun _ _ => true)) (str "u") (str "pro-77")
      .missing [] 0 rfl rfl rfl rfl,
    claim_C5_legacy_fallback.2.2.2 (some (fun _ _ => true)) (str "u")
      (str "SSDL1.bad.bad") .missing 0 rfl⟩

/-- Stage 8 of the code and of the spec's table agree definitionally. -/
theorem stageJti_eq_spec (kvs : List (Str × JVal)) (rev : List JVal)
    (tier : Str) : stageJti (.jobj kvs) rev tier = specJti kvs rev tier := rfl

/-- Stage 7 of the code agrees with the spec's table reading. -/
theorem stageNbf_eq_spec (kvs : List (Str × JVal)) (rev : List JVal)
    (now : Int) (tier : Str) :
    stageNbf (.jobj kvs) rev now tier = specNbf kvs rev now tier := by
  show (if isNoneV (lookupLast kvs (str "nbf")) = true then
      stageJti (.jobj kvs) rev tier
    else
      match pyToInt ((lookupLast kvs (str "nbf")).getD .jnull) with
      | Except.error e => Except.error e
      | Except.ok i =>
        if i > now then
          Except.ok ⟨false, str "free", "not_yet_valid", some (.jobj kvs)⟩
        else stageJti (.jobj kvs) rev tier) = specNbf kvs rev now tier
  unfold specNbf specTime
  cases hlook : lookupLast kvs (str "nbf") with
  | none => rfl
  | some v =>
    cases v with
    | jnull => rfl
    | jbool b => rfl
    | jint n => rfl
    | jarr xs => rfl
    | jobj o => rfl
    | jstr s2 =>
      simp only [Option.getD_some, pyToInt]
      cases hp : parsePyIntStr s2 <;> rfl

/-- Stage 6 of the code agrees with the spec's table reading. -/
theorem stageExp_eq_spec (kvs : List (Str × JVal)) (rev : List JVal)
    (now : Int) (tier : Str) :
    stageExp (.jobj kvs) rev now tier = specExp kvs rev now tier := by
  show (if isNoneV (lookupLast kvs (str "exp")) = true then
      stageNbf (.jobj kvs) rev now tier
    else
      match pyToInt ((lookupLast kvs (str "exp")).getD .jnull) with
      | Except.error e => Except.error e
      | Except.ok i =>
        if i < now then
          Except.ok ⟨false, str "free", "expired", some (.jobj kvs)⟩
        else stageNbf (.jobj kvs) rev now tier) = specExp kvs rev now tier
  unfold specExp specTime
  cases hlook : lookupLast kvs (str "exp") with
  | none => exact stageNbf_eq_spec kvs rev now tier
  | some v =>
    cases v with
    | jnull => exact stageNbf_eq_spec kvs rev now tier
    | jbool b =>
      show (if (if b = true then (1 : Int) else 0) < now then
          Except.ok ⟨false, str "free", "expired", some (.jobj kvs)⟩
        else stageNbf (.jobj kvs) rev now tier) = _
      rw [stageNbf_eq_spec kvs rev now tier]
      rfl
    | jint n =>
      show (if n < now then
          Except.ok ⟨false, str "free", "expired", some (.jobj kvs)⟩
        else stageNbf (.jobj kvs) rev now tier) = _
      rw [stageNbf_eq_spec kvs rev now tier]
      rfl
    | jarr xs => rfl
    | jobj o => rfl
    | jstr s2 =>
      simp only [Option.getD_some, pyToInt]
      cases hp : parsePyIntStr s2 with
      | none => rfl
      | some n =>
        show (if n < now then
            Except.ok ⟨false, str "free", "expired", some (.jobj kvs)⟩
          else stageNbf (.jobj kvs) rev now tier) = _
        rw [stageNbf_eq_spec kvs rev now tier]
        rfl

/-- Stages 5–8 of the code agree with the spec's table reading (including
the `AttributeError` raise on a non-object payload). -/
theorem validateClaims_eq_spec (claims : JVal) (rev : List JVal) (now : Int) :
    validateClaims claims rev now =
      (match claims with
       | .jobj kvs => specPolicy kvs rev now
       | _ => .error .attributeError) := by
  cases claims with
  | jobj kvs =>
    simp only [validateClaims, specPolicy]
    by_cases hp : planOf kvs = str "free" ∨ planOf kvs = str "pro" ∨
        planOf kvs = str "enterprise"
    · rw [if_neg (not_not_intro hp), if_neg (not_not_intro hp)]
      exact stageExp_eq_spec kvs rev now (planOf kvs)
    · rw [if_pos hp, if_pos hp]
  | jnull => rfl
  | jbool b => rfl
  | jint n => rfl
  | jstr s => rfl
  | jarr xs => rfl

/-- C2 counterexample: a validly-signed token whose payload is the JSON
array `[1,2]` is not a claim record, so the claim's stage table predicts
`invalid_payload`; the code instead raises `AttributeError`, returning
none of the listed results. -/
theorem claim_C2_counterexample :
    validate_signed_token (fun _ _ => true) (str "SSDL1.WzEsMl0.") [] 0 =
      .error .attributeError := rfl

/-- C2 (amended): the verifier is exactly the spec's ordered stage table,
first failing stage short-circuiting with the listed reason, amended in
two points the code forces: stage 5 tests the lowercased string form of
the plan claim, and after signature verification a payload that is not a
JSON object (or whose `exp`/`nbf` is not `int()`-coercible) makes the
verifier raise instead of short-circuiting with a result. -/
theorem claim_C2_pipeline (verify : List Nat → List Nat → Bool) (token : Str)
    (revoked : List JVal) (now : Int) :
    validate_signed_token verify token revoked now =
      specStages verify token revoked now := by
  unfold validate_signed_token specStages
  rcases hs : splitCh '.' token with _ | ⟨p0, _ | ⟨p1, _ | ⟨p2, _ | ⟨p3, tl⟩⟩⟩⟩
  · rfl
  · rfl
  · rfl
  · show (if p0 ≠ str "SSDL1" then
        Except.ok ⟨false, str "free", "invalid_format", none⟩
      else
        match b64urlDecode p1, b64urlDecode p2 with
        | some payload_bytes, some signature =>
          if (!verify signature payload_bytes) = true then
            Except.ok ⟨false, str "free", "invalid_signature", none⟩
          else
            match (utf8Decode payload_bytes).bind parseJson with
            | none => Except.ok ⟨false, str "free", "invalid_payload", none⟩
            | some claims => validateClaims claims revoked now
        | _, _ => Except.ok ⟨false, str "free", "invalid_encoding", none⟩) = _
    simp only [List.getD_cons_succ, List.getD_cons_zero]
    by_cases hp0 : p0 = str "SSDL1"
    · rw [if_neg (not_not_intro hp0), if_neg (not_not_intro ⟨rfl, hp0⟩)]
      cases hd1 : b64urlDecode p1 with
      | none => rfl
      | some payload =>
        cases hd2 : b64urlDecode p2 with
        | none => rfl
        | some signature =>
          show (if (!verify signature payload) = true then
              Except.ok ⟨false, str "free", "invalid_signature", none⟩
            else
              match (utf8Decode payload).bind parseJson with
              | none => Except.ok ⟨false, str "free", "invalid_payload", none⟩
              | some claims => validateClaims claims revoked now) =
            (if ¬ verify signature payload = true then
              Except.ok ⟨false, str "free", "invalid_signature", none⟩
            else
              match (utf8Decode payload).bind parseJson with
              | none => Except.ok ⟨false, str "free", "invalid_payload", none⟩
              | some (JVal.jobj kvs) => specPolicy kvs revoked now
              | some _ => Except.error PyExc.attributeError)
          cases hv : verify signature payload with
          | false => rfl
          | true =>
            show (match (utf8Decode payload).bind parseJson with
              | none =>
                (Except.ok ⟨false, str "free", "invalid_payload", none⟩ :
                  Except PyExc VResult)
              | some claims => validateClaims claims revoked now) = _
            cases hj : (utf8Decode payload).bind parseJson with
            | none => rfl
            | some claims =>
              show validateClaims claims revoked now = _
              rw [validateClaims_eq_spec claims revoked now]
              cases claims <;> rfl
    · rw [if_pos hp0, if_pos (fun hne => hp0 hne.2)]
  · rw [if_pos (by simp)]

theorem hexVal_hexDigit (x : Nat) (h : x < 16) : hexVal (hexDigit x) = some x := by
  interval_cases x <;> rfl

theorem hex4Val_hex4 (n : Nat) (h : n < 65536) :
    hex4Val (hexDigit (n / 4096 % 16)) (hexDigit (n / 256 % 16))
      (hexDigit (n / 16 % 16)) (hexDigit (n % 16)) = some n := by
  unfold hex4Val
  rw [hexVal_hexDigit _ (by omega), hexVal_hexDigit _ (by omega),
    hexVal_hexDigit _ (by omega), hexVal_hexDigit _ (by omega)]
  simp only [Option.bind_eq_bind, Option.some_bind, Option.some.injEq]
  omega

/-- A scalar value is never in the surrogate range. -/
theorem char_valid_range (c : Char) :
    c.toNat < 55296 ∨ (57344 ≤ c.toNat ∧ c.toNat < 1114112) := by
  have h := c.valid
  simp only [UInt32.isValidChar, Nat.isValidChar] at h
  rcases h with h | h
  · exact Or.inl h
  · exact Or.inr h

/-- The `u` escape head reduced to the hex-value match. -/
theorem escStep_u (h1 h2 h3 h4 : Char) (r2 : Str) :
    escStep ('u' :: h1 :: h2 :: h3 :: h4 :: r2) =
      (match hex4Val h1 h2 h3 h4 with
       | none => none
       | some n => escUnicode n r2) := by
  simp [escStep]

/-- A non-surrogate value below `0x10000` decodes as itself. -/
theorem escUnicode_plain (n : Nat) (r2 : Str)
    (h1 : ¬ (55296 ≤ n ∧ n < 56320)) (h2 : ¬ (56320 ≤ n ∧ n < 57344)) :
    escUnicode n r2 = some (Char.ofNat n, r2) := by
  unfold escUnicode
  rw [if_neg (by simp; omega), if_neg (by simp; omega)]

/-- A high surrogate followed by a low-surrogate escape combines. -/
theorem escUnicode_pair (n m : Nat) (X : Str)
    (h1 : 55296 ≤ n) (h2 : n < 56320) (h3 : 56320 ≤ m) (h4 : m < 57344) :
    escUnicode n ('\\' :: 'u' :: (hex4 m ++ X)) =
      some (Char.ofNat (65536 + (n - 55296) * 1024 + (m - 56320)), X) := by
  unfold escUnicode
  rw [if_pos (by simp; omega)]
  show (match hex4Val (hexDigit (m / 4096 % 16)) (hexDigit (m / 256 % 16))
      (hexDigit (m / 16 % 16)) (hexDigit (m % 16)) with
    | none => (none : Option (Char × Str))
    | some m2 =>
      if 56320 ≤ m2 && m2 < 57344 then
        some (Char.ofNat (65536 + (n - 55296) * 1024 + (m2 - 56320)), X)
      else none) = _
  rw [hex4Val_hex4 _ (by omega)]
  show (if 56320 ≤ m && m < 57344 then
      some (Char.ofNat (65536 + (n - 55296) * 1024 + (m - 56320)), X)
    else none) = _
  rw [if_pos (by simp; omega)]

/-- A `\uXXXX` (or surrogate-pair) escape decodes back to its character. -/
theorem escStep_uEscape (c : Char) (X : Str) :
    ∃ t, uEscape c.toNat = '\\' :: t ∧ escStep (t ++ X) = some (c, X) := by
  have hval := char_valid_range c
  have hlt := char_toNat_lt c
  unfold uEscape
  by_cases hn : c.toNat < 65536
  · rw [if_pos hn]
    refine ⟨'u' :: hex4 c.toNat, rfl, ?_⟩
    show escStep ('u' :: (hex4 c.toNat ++ X)) = some (c, X)
    simp only [hex4, List.cons_append, List.nil_append]
    rw [escStep_u, hex4Val_hex4 _ hn]
    show escUnicode c.toNat X = some (c, X)
    rw [escUnicode_plain c.toNat X (by omega) (by omega), Char.ofNat_toNat]
  · rw [if_neg hn]
    refine ⟨'u' :: (hex4 (55296 + (c.toNat - 65536) / 1024) ++
      '\\' :: 'u' :: hex4 (56320 + (c.toNat - 65536) % 1024)), rfl, ?_⟩
    set hi := 55296 + (c.toNat - 65536) / 1024 with hhi
    set lo := 56320 + (c.toNat - 65536) % 1024 with hlo
    show escStep ('u' :: ((hex4 hi ++ '\\' :: 'u' :: hex4 lo) ++ X)) = some (c, X)
    have hshape : ('u' : Char) :: ((hex4 hi ++ '\\' :: 'u' :: hex4 lo) ++ X) =
        'u' :: hexDigit (hi / 4096 % 16) :: hexDigit (hi / 256 % 16) ::
          hexDigit (hi / 16 % 16) :: hexDigit (hi % 16) ::
          ('\\' :: 'u' :: (hex4 lo ++ X)) := by
      simp [hex4]
    rw [hshape, escStep_u, hex4Val_hex4 _ (by omega)]
    show escUnicode hi ('\\' :: 'u' :: (hex4 lo ++ X)) = some (c, X)
    rw [escUnicode_pair hi lo X (by omega) (by omega) (by omega) (by omega)]
    have harith : 65536 + (hi - 55296) * 1024 + (lo - 56320) = c.toNat := by
      rw [hhi, hlo]
      omega
    rw [harith, Char.ofNat_toNat]

/-- Every escaped character round-trips through `escStep`. -/
theorem escStep_escChar (c : Char) (X : Str) (h : escChar c ≠ [c]) :
    ∃ t, escChar c = '\\' :: t ∧ escStep (t ++ X) = some (c, X) := by
  unfold escChar at h ⊢
  split_ifs at h ⊢ with h1 h2 h3 h4 h5 h6 h7 h8
  · exact ⟨['"'], rfl, by simp [escStep, h1]⟩
  · exact ⟨['\\'], rfl, by simp [escStep, h2]⟩
  · refine ⟨['b'], rfl, ?_⟩
    simp [escStep]
    rw [← h3, Char.ofNat_toNat]
  · refine ⟨['f'], rfl, ?_⟩
    simp [escStep]
    rw [← h4, Char.ofNat_toNat]
  · exact ⟨['n'], rfl, by simp [escStep, h5]⟩
  · exact ⟨['r'], rfl, by simp [escStep, h6]⟩
  · exact ⟨['t'], rfl, by simp [escStep, h7]⟩
  · exact escStep_uEscape c X
  · exact absurd rfl h

/-- When a character is kept literally by the escaper, it is an ordinary
printable character. -/
theorem escChar_eq_self (c : Char) (h : escChar c = [c]) :
    ¬ c = '"' ∧ ¬ c = '\\' ∧ ¬ c.toNat < 32 := by
  unfold escChar at h
  split_ifs at h with h1 h2 h3 h4 h5 h6 h7 h8
  · exact ⟨h1 ▸ (by simp at h), by simp at h, by simp at h⟩
  · exact ⟨by simp at h, by simp at h, by simp at h⟩
  · exact ⟨by simp at h, by simp at h, by simp at h⟩
  · exact ⟨by simp at h, by simp at h, by simp at h⟩
  · exact ⟨by simp at h, by simp at h, by simp at h⟩
  · exact ⟨by simp at h, by simp at h, by simp at h⟩
  · exact ⟨by simp at h, by simp at h, by simp at h⟩
  · have hlen : (uEscape c.toNat).length = 1 := by rw [h]; rfl
    have : (uEscape c.toNat).length = 6 ∨ (uEscape c.toNat).length = 12 := by
      unfold uEscape
      split_ifs
      · left; simp [hex4]
      · right; simp [hex4]
    omega
  · simp only [Bool.or_eq_true, decide_eq_true_eq, not_or] at h8
    exact ⟨h1, h2, h8.1⟩

/-- The escaped body of a string parses back to the string (with any
continuation after the closing quote), given enough fuel. -/
theorem parseStrBodyLoop_escBody (s : Str) : ∀ (fuel : Nat) (rest : Str),
    (escBody s).length + 1 ≤ fuel →
    parseStrBodyLoop fuel (escBody s ++ '"' :: rest) = some (s, rest) := by
  induction s with
  | nil =>
    intro fuel rest h
    match fuel, h with
    | f + 1, _ => simp [parseStrBodyLoop]
  | cons c cs ih =>
    intro fuel rest h
    by_cases hlit : escChar c = [c]
    · obtain ⟨hq, hbs, hctl⟩ := escChar_eq_self c hlit
      have hbody : escBody (c :: cs) = c :: escBody cs := by
        show escChar c ++ escBody cs = _
        rw [hlit]
        rfl
      rw [hbody] at h ⊢
      match fuel, h with
      | f + 1, h =>
        show parseStrBodyLoop (f + 1) (c :: (escBody cs ++ '"' :: rest)) = _
        simp only [parseStrBodyLoop]
        rw [if_neg hq, if_neg hbs, if_neg hctl]
        rw [ih f rest (by simp at h; omega)]
        rfl
    · obtain ⟨t, ht, hstep⟩ := escStep_escChar c (escBody cs ++ '"' :: rest) hlit
      have hbody : escBody (c :: cs) = '\\' :: (t ++ escBody cs) := by
        show escChar c ++ escBody cs = _
        rw [ht]
        rfl
      rw [hbody] at h ⊢
      match fuel, h with
      | f + 1, h =>
        show parseStrBodyLoop (f + 1) ('\\' :: ((t ++ escBody cs) ++ '"' :: rest)) = _
        simp only [parseStrBodyLoop]
        simp only [reduceIte]
        rw [if_neg (by decide : ¬('\\' : Char) = '"')]
        rw [List.append_assoc, hstep]
        show mapConsCh c (parseStrBodyLoop f (escBody cs ++ '"' :: rest)) = _
        rw [ih f rest (by simp at h; omega)]
        rfl

/-- `parseStrBody` round-trips the escaped body of any string. -/
theorem parseStrBody_escBody (s rest : Str) :
    parseStrBody (escBody s ++ '"' :: rest) = some (s, rest) := by
  unfold parseStrBody
  apply parseStrBodyLoop_escBody
  simp

/-- `splitCh` never returns the empty list of groups. -/
theorem splitCh_ne_nil (sep : Char) (s : Str) : splitCh sep s ≠ [] := by
  cases s with
  | nil => simp [splitCh]
  | cons c rest =>
    simp only [splitCh]
    match splitCh sep rest with
    | [] => simp
    | g :: gs =>
      by_cases h : c = sep
      · simp [h]
      · simp [h]

/-- A separator-free string splits into the single group itself. -/
theorem splitCh_no_sep (sep : Char) (s : Str) (h : ∀ c ∈ s, c ≠ sep) :
    splitCh sep s = [s] := by
  induction s with
  | nil => rfl
  | cons c rest ih =>
    have hrest := ih (fun x hx => h x (List.mem_cons_of_mem c hx))
    simp only [splitCh, hrest]
    rw [if_neg (h c (List.mem_cons_self c rest))]

/-- Splitting distributes over the first separator after a
separator-free prefix. -/
theorem splitCh_append_sep (sep : Char) (s1 s2 : Str)
    (h : ∀ c ∈ s1, c ≠ sep) :
    splitCh sep (s1 ++ sep :: s2) = s1 :: splitCh sep s2 := by
  induction s1 with
  | nil =>
    show splitCh sep (sep :: s2) = [] :: splitCh sep s2
    simp only [splitCh]
    match h2 : splitCh sep s2 with
    | [] => exact absurd h2 (splitCh_ne_nil sep s2)
    | g :: gs => simp
  | cons c rest ih =>
    have hrest := ih (fun x hx => h x (List.mem_cons_of_mem c hx))
    show splitCh sep (c :: (rest ++ sep :: s2)) = (c :: rest) :: splitCh sep s2
    simp only [splitCh, hrest]
    rw [if_neg (h c (List.mem_cons_self c rest))]

/-- Splitting an assembled `SSDL1.<payload>.<signature>` token whose two
encoded parts are free of dots gives exactly the three parts. -/
theorem splitCh_token (s1 s2 : Str)
    (h1 : ∀ c ∈ s1, c ≠ '.') (h2 : ∀ c ∈ s2, c ≠ '.') :
    splitCh '.' (str "SSDL1." ++ s1 ++ '.' :: s2) = [str "SSDL1", s1, s2] := by
  show splitCh '.' (str "SSDL1" ++ '.' :: (s1 ++ '.' :: s2)) = _
  rw [splitCh_append_sep '.' (str "SSDL1") (s1 ++ '.' :: s2) (by decide),
    splitCh_append_sep '.' s1 s2 h1, splitCh_no_sep '.' s2 h2]

/-- Scalar value of a decimal digit character. -/
theorem digitChar_toNat (d : Nat) (h : d < 10) : (digitChar d).toNat = 48 + d := by
  interval_cases d <;> decide

/-- A rendered digit satisfies the digit test. -/
theorem isDigitCh_digitChar (d : Nat) (h : d < 10) :
    isDigitCh (digitChar d) = true := by
  simp only [isDigitCh, digitChar_toNat d h, Bool.and_eq_true, decide_eq_true_eq]
  omega

/-- Munching the rendered digits of `n` onto an accumulator shifts the
accumulator past them. -/
theorem munchDigits_natDigitsFuel :
    ∀ (f n acc : Nat) (r : Str), n < f →
      munchDigits acc (natDigitsFuel f n ++ r) =
        munchDigits (acc * 10 ^ (natDigitsFuel f n).length + n) r := by
  intro f
  induction f with
  | zero => intro n _ _ h; omega
  | succ f ih =>
    intro n acc r h
    by_cases h10 : n < 10
    · simp only [natDigitsFuel, if_pos h10, List.cons_append, List.nil_append,
        List.length_cons, List.length_nil]
      show munchDigits acc (digitChar n :: r) = _
      simp only [munchDigits, isDigitCh_digitChar n h10, if_true]
      have : acc * 10 + ((digitChar n).toNat - 48) = acc * 10 ^ (0 + 1) + n := by
        rw [digitChar_toNat n h10, pow_succ, pow_zero]
        omega
      rw [this]
    · simp only [natDigitsFuel, if_neg h10, List.append_assoc, List.cons_append,
        List.nil_append, List.length_append, List.length_cons, List.length_nil]
      rw [ih (n / 10) acc _ (by omega)]
      show munchDigits _ (digitChar (n % 10) :: r) = _
      simp only [munchDigits, isDigitCh_digitChar (n % 10) (by omega), if_true]
      have : (acc * 10 ^ (natDigitsFuel f (n / 10)).length + n / 10) * 10 +
          ((digitChar (n % 10)).toNat - 48) =
          acc * 10 ^ ((natDigitsFuel f (n / 10)).length + (0 + 1)) + n := by
        rw [digitChar_toNat (n % 10) (by omega), pow_succ]
        ring_nf
        omega
      rw [this]

/-- The rendering of `n` starts with a digit character, nonzero when `n`
is. -/
theorem natDigitsFuel_head :
    ∀ (f n : Nat), n < f →
      ∃ d ds, natDigitsFuel f n = digitChar d :: ds ∧ d < 10 ∧ (0 < n → 0 < d) := by
  intro f
  induction f with
  | zero => intro n h; omega
  | succ f ih =>
    intro n h
    by_cases h10 : n < 10
    · exact ⟨n, [], by simp [natDigitsFuel, if_pos h10], h10, fun hn => hn⟩
    · obtain ⟨d, ds, heq, hd10, hdpos⟩ := ih (n / 10) (by omega)
      refine ⟨d, ds ++ [digitChar (n % 10)], ?_, hd10, fun _ => hdpos (by omega)⟩
      simp only [natDigitsFuel, if_neg h10, heq, List.cons_append]

/-- Munching the full rendering of `n` from a zero accumulator recovers
`n`, stopping at the first non-digit. -/
theorem munchDigits_natDigits (m : Nat) (c : Char) (r : Str)
    (hc : isDigitCh c = false) :
    munchDigits 0 (natDigits m ++ c :: r) = (m, c :: r) := by
  rw [natDigits, munchDigits_natDigitsFuel (m + 1) m 0 (c :: r) (by omega)]
  simp only [munchDigits, hc, Nat.zero_mul, Nat.zero_add, Bool.false_eq_true,
    if_false]

theorem parse_natDigits (m : Nat) (c : Char) (r : Str)
    (hc : isDigitCh c = false) :
    parseJIntTok (natDigits m ++ c :: r) = some ((m : Int), c :: r) := by
  by_cases hm : m = 0
  · subst hm
    rw [show natDigits 0 = ['0'] from by decide]
    simp [parseJIntTok]
  · obtain ⟨d, ds, heq, hd10, hdpos⟩ := natDigitsFuel_head (m + 1) m (by omega)
    have hd1 : 0 < d := hdpos (by omega)
    have hM : munchDigits d (ds ++ c :: r) = (m, c :: r) := by
      have h0 := munchDigits_natDigits m c r hc
      rw [natDigits, heq] at h0
      simp only [List.cons_append, munchDigits,
        isDigitCh_digitChar d hd10, if_true] at h0
      rwa [show 0 * 10 + ((digitChar d).toNat - 48) = d from by
        rw [digitChar_toNat d hd10]; omega] at h0
    rw [natDigits, heq]
    simp only [List.cons_append]
    rw [parseJIntTok.eq_def]
    split
    · rename_i x2 r2 heq2
      injection heq2 with hh ht
      have := congrArg Char.toNat hh
      rw [digitChar_toNat d hd10, show ('-').toNat = 45 from by decide] at this
      omega
    · rename_i x2 r2 heq2
      injection heq2 with hh ht
      have := congrArg Char.toNat hh
      rw [digitChar_toNat d hd10, show ('0').toNat = 48 from by decide] at this
      omega
    · rename_i x2 c2 rest2 hne1 hne2 heq2
      injection heq2 with hh ht
      subst hh
      subst ht
      rw [if_pos (isDigitCh_digitChar d hd10),
        show (digitChar d).toNat - 48 = d from by rw [digitChar_toNat d hd10]; omega,
        hM]
    · rename_i x2 heq2
      exact absurd heq2 (by simp)

theorem parseJIntTok_neg (m : Nat) (hm : 0 < m) (c : Char) (r : Str)
    (hc : isDigitCh c = false) :
    parseJIntTok ('-' :: (natDigits m ++ c :: r)) = some (-(m : Int), c :: r) := by
  obtain ⟨d, ds, heq, hd10, hdpos⟩ := natDigitsFuel_head (m + 1) m (by omega)
  have hd1 : 0 < d := hdpos (by omega)
  have hM : munchDigits d (ds ++ c :: r) = (m, c :: r) := by
    have h0 := munchDigits_natDigits m c r hc
    rw [natDigits, heq] at h0
    simp only [List.cons_append, munchDigits,
      isDigitCh_digitChar d hd10, if_true] at h0
    rwa [show 0 * 10 + ((digitChar d).toNat - 48) = d from by
      rw [digitChar_toNat d hd10]; omega] at h0
  rw [natDigits, heq]
  simp only [List.cons_append, parseJIntTok]
  split
  · rename_i x2 r2 heq2
    injection heq2 with hh ht
    have := congrArg Char.toNat hh
    rw [digitChar_toNat d hd10, show ('0').toNat = 48 from by decide] at this
    omega
  · rename_i x2 c2 rest2 hne1 heq2
    injection heq2 with hh ht
    subst hh
    subst ht
    rw [if_pos (isDigitCh_digitChar d hd10),
      show (digitChar d).toNat - 48 = d from by rw [digitChar_toNat d hd10]; omega,
      hM]
  · rename_i x2 heq2
    exact absurd heq2 (by simp)

theorem parseJIntTok_intDigits (n : Int) (c : Char) (r : Str)
    (hc : isDigitCh c = false) :
    parseJIntTok (intDigits n ++ c :: r) = some (n, c :: r) := by
  by_cases hn : n < 0
  · rw [intDigits, if_pos hn]
    simp only [List.cons_append]
    rw [parseJIntTok_neg n.natAbs (by omega) c r hc]
    congr 1
    congr 1
    omega
  · rw [intDigits, if_neg hn]
    rw [parse_natDigits n.natAbs c r hc]
    congr 2
    omega

theorem skipWs_cons (c : Char) (r : Str) (h1 : ¬ c = ' ') (h2 : ¬ c = '\t')
    (h3 : ¬ c = '\n') (h4 : ¬ c = '\r') : skipWs (c :: r) = c :: r := by
  simp [skipWs, List.dropWhile_cons, h1, h2, h3, h4]

theorem parseVal_num (f : Nat) (c : Char) (rest : Str)
    (hlb : ¬ c = '{') (hsb : ¬ c = '[') (hq : ¬ c = '"') (ht : ¬ c = 't')
    (hf : ¬ c = 'f') (hn : ¬ c = 'n')
    (h1 : ¬ c = ' ') (h2 : ¬ c = '\t') (h3 : ¬ c = '\n') (h4 : ¬ c = '\r') :
    parseVal (f + 1) (c :: rest) =
      (parseJIntTok (c :: rest)).map (fun p => (JVal.jint p.1, p.2)) := by
  simp only [parseVal]
  rw [skipWs_cons c rest h1 h2 h3 h4]
  show (if c = '{' then
      match skipWs rest with
      | '}' :: r2 => some (JVal.jobj [], r2)
      | r2 => (parseMembers f r2).map (fun p => (JVal.jobj p.1, p.2))
    else if c = '[' then
      match skipWs rest with
      | ']' :: r2 => some (JVal.jarr [], r2)
      | r2 => (parseElems f r2).map (fun p => (JVal.jarr p.1, p.2))
    else if c = '"' then
      (parseStrBody rest).map (fun p => (JVal.jstr p.1, p.2))
    else if c = 't' then
      match rest with
      | 'r' :: 'u' :: 'e' :: r => some (JVal.jbool true, r)
      | _ => none
    else if c = 'f' then
      match rest with
      | 'a' :: 'l' :: 's' :: 'e' :: r => some (JVal.jbool false, r)
      | _ => none
    else if c = 'n' then
      match rest with
      | 'u' :: 'l' :: 'l' :: r => some (JVal.jnull, r)
      | _ => none
    else
      (parseJIntTok (c :: rest)).map (fun p => (JVal.jint p.1, p.2))) = _
  rw [if_neg hlb, if_neg hsb, if_neg hq, if_neg ht, if_neg hf, if_neg hn]

/-- The rendering of an integer starts with a minus sign or a digit. -/
theorem intDigits_cons (n : Int) : ∃ c0 cs, intDigits n = c0 :: cs ∧
    (c0 = '-' ∨ ∃ d, d < 10 ∧ c0 = digitChar d) := by
  by_cases hn : n < 0
  · exact ⟨'-', natDigits n.natAbs, by rw [intDigits, if_pos hn], Or.inl rfl⟩
  · obtain ⟨d, ds, heq, hd10, _⟩ := natDigitsFuel_head (n.natAbs + 1) n.natAbs (by omega)
    exact ⟨digitChar d, ds, by rw [intDigits, if_neg hn, natDigits, heq],
      Or.inr ⟨d, hd10, rfl⟩⟩

/-- `parseVal` on a rendered integer followed by a non-digit. -/
theorem parseVal_intDigits (f : Nat) (n : Int) (c : Char) (r : Str)
    (hc : isDigitCh c = false) :
    parseVal (f + 1) (intDigits n ++ c :: r) = some (JVal.jint n, c :: r) := by
  obtain ⟨c0, cs, hI, hh⟩ := intDigits_cons n
  have hgt : ∀ x : Char, 57 < x.toNat → ¬ c0 = x := by
    intro x hx he
    subst he
    rcases hh with h | ⟨d, hd, h⟩
    · rw [h] at hx
      exact absurd hx (by decide)
    · rw [h, digitChar_toNat d hd] at hx
      omega
  have hlt : ∀ x : Char, x.toNat < 45 → ¬ c0 = x := by
    intro x hx he
    subst he
    rcases hh with h | ⟨d, hd, h⟩
    · rw [h] at hx
      exact absurd hx (by decide)
    · rw [h, digitChar_toNat d hd] at hx
      omega
  rw [hI, List.cons_append,
    parseVal_num f c0 (cs ++ c :: r) (hgt '{' (by decide)) (hgt '[' (by decide))
      (hlt '"' (by decide)) (hgt 't' (by decide)) (hgt 'f' (by decide))
      (hgt 'n' (by decide)) (hlt ' ' (by decide)) (hlt '\t' (by decide))
      (hlt '\n' (by decide)) (hlt '\r' (by decide)),
    ← List.cons_append, ← hI, parseJIntTok_intDigits n c r hc]
  rfl

/-- `parseVal` on an opening quote parses a string literal. -/
theorem parseVal_quote (f : Nat) (rest : Str) :
    parseVal (f + 1) ('"' :: rest) =
      (parseStrBody rest).map (fun p => (JVal.jstr p.1, p.2)) := by
  simp only [parseVal]
  rw [skipWs_cons _ _ (by decide) (by decide) (by decide) (by decide)]
  show (if ('"' : Char) = '{' then
      match skipWs rest with
      | '}' :: r2 => some (JVal.jobj [], r2)
      | r2 => (parseMembers f r2).map (fun p => (JVal.jobj p.1, p.2))
    else if ('"' : Char) = '[' then
      match skipWs rest with
      | ']' :: r2 => some (JVal.jarr [], r2)
      | r2 => (parseElems f r2).map (fun p => (JVal.jarr p.1, p.2))
    else if ('"' : Char) = '"' then
      (parseStrBody rest).map (fun p => (JVal.jstr p.1, p.2))
    else if ('"' : Char) = 't' then
      match rest with
      | 'r' :: 'u' :: 'e' :: r => some (JVal.jbool true, r)
      | _ => none
    else if ('"' : Char) = 'f' then
      match rest with
      | 'a' :: 'l' :: 's' :: 'e' :: r => some (JVal.jbool false, r)
      | _ => none
    else if ('"' : Char) = 'n' then
      match rest with
      | 'u' :: 'l' :: 'l' :: r => some (JVal.jnull, r)
      | _ => none
    else
      (parseJIntTok ('"' :: rest)).map (fun p => (JVal.jint p.1, p.2))) = _
  rw [if_neg (by decide : ¬('"' : Char) = '{'), if_neg (by decide : ¬('"' : Char) = '['),
    if_pos rfl]

/-- `parseVal` on a rendered string literal. -/
theorem parseVal_escString (f : Nat) (s r : Str) :
    parseVal (f + 1) (escString s ++ r) = some (JVal.jstr s, r) := by
  have hshape : escString s ++ r = '"' :: (escBody s ++ '"' :: r) := by
    simp [escString]
  rw [hshape, parseVal_quote, parseStrBody_escBody s r]
  rfl

/-- One non-final member of an object: parse the key, the value, the
comma, then the remaining members. -/
theorem parseMembers_step (f : Nat) (k : Str) (body rest : Str) (v : JVal)
    (out : List (Str × JVal)) (rout : Str)
    (hval : parseVal f body = some (v, ',' :: rest))
    (hnext : parseMembers f rest = some (out, rout)) :
    parseMembers (f + 1) (escString k ++ ':' :: body) =
      some ((k, v) :: out, rout) := by
  have hshape : escString k ++ ':' :: body = '"' :: (escBody k ++ '"' :: ':' :: body) := by
    simp [escString]
  rw [hshape]
  simp only [parseMembers]
  rw [skipWs_cons _ _ (by decide) (by decide) (by decide) (by decide)]
  show (match parseStrBody (escBody k ++ '"' :: ':' :: body) with
    | none => none
    | some (k2, r2) =>
      match skipWs r2 with
      | ':' :: r3 =>
        match parseVal f r3 with
        | none => none
        | some (v2, r4) =>
          match skipWs r4 with
          | ',' :: r5 => (parseMembers f r5).map (fun (p : List (Str × JVal) × Str) => ((k2, v2) :: p.1, p.2))
          | '}' :: r5 => some ([(k2, v2)], r5)
          | _ => none
      | _ => none) = _
  rw [parseStrBody_escBody k (':' :: body)]
  show (match skipWs (':' :: body) with
    | ':' :: r3 =>
      match parseVal f r3 with
      | none => none
      | some (v2, r4) =>
        match skipWs r4 with
        | ',' :: r5 => (parseMembers f r5).map (fun (p : List (Str × JVal) × Str) => ((k, v2) :: p.1, p.2))
        | '}' :: r5 => some ([(k, v2)], r5)
        | _ => none
    | _ => none) = _
  rw [skipWs_cons _ _ (by decide) (by decide) (by decide) (by decide)]
  show (match parseVal f body with
    | none => none
    | some (v2, r4) =>
      match skipWs r4 with
      | ',' :: r5 => (parseMembers f r5).map (fun (p : List (Str × JVal) × Str) => ((k, v2) :: p.1, p.2))
      | '}' :: r5 => some ([(k, v2)], r5)
      | _ => none) = _
  rw [hval]
  show (match skipWs (',' :: rest) with
    | ',' :: r5 => (parseMembers f r5).map (fun (p : List (Str × JVal) × Str) => ((k, v) :: p.1, p.2))
    | '}' :: r5 => some ([(k, v)], r5)
    | _ => none) = _
  rw [skipWs_cons _ _ (by decide) (by decide) (by decide) (by decide)]
  show (parseMembers f rest).map (fun (p : List (Str × JVal) × Str) => ((k, v) :: p.1, p.2)) = _
  rw [hnext]
  rfl

/-- The final member of an object: parse the key, the value, then the
closing brace. -/
theorem parseMembers_last (f : Nat) (k : Str) (body rest : Str) (v : JVal)
    (hval : parseVal f body = some (v, '}' :: rest)) :
    parseMembers (f + 1) (escString k ++ ':' :: body) = some ([(k, v)], rest) := by
  have hshape : escString k ++ ':' :: body = '"' :: (escBody k ++ '"' :: ':' :: body) := by
    simp [escString]
  rw [hshape]
  simp only [parseMembers]
  rw [skipWs_cons _ _ (by decide) (by decide) (by decide) (by decide)]
  show (match parseStrBody (escBody k ++ '"' :: ':' :: body) with
    | none => none
    | some (k2, r2) =>
      match skipWs r2 with
      | ':' :: r3 =>
        match parseVal f r3 with
        | none => none
        | some (v2, r4) =>
          match skipWs r4 with
          | ',' :: r5 => (parseMembers f r5).map (fun (p : List (Str × JVal) × Str) => ((k2, v2) :: p.1, p.2))
          | '}' :: r5 => some ([(k2, v2)], r5)
          | _ => none
      | _ => none) = _
  rw [parseStrBody_escBody k (':' :: body)]
  show (match skipWs (':' :: body) with
    | ':' :: r3 =>
      match parseVal f r3 with
      | none => none
      | some (v2, r4) =>
        match skipWs r4 with
        | ',' :: r5 => (parseMembers f r5).map (fun (p : List (Str × JVal) × Str) => ((k, v2) :: p.1, p.2))
        | '}' :: r5 => some ([(k, v2)], r5)
        | _ => none
    | _ => none) = _
  rw [skipWs_cons _ _ (by decide) (by decide) (by decide) (by decide)]
  show (match parseVal f body with
    | none => none
    | some (v2, r4) =>
      match skipWs r4 with
      | ',' :: r5 => (parseMembers f r5).map (fun (p : List (Str × JVal) × Str) => ((k, v2) :: p.1, p.2))
      | '}' :: r5 => some ([(k, v2)], r5)
      | _ => none) = _
  rw [hval]
  show (match skipWs ('}' :: rest) with
    | ',' :: r5 => (parseMembers f r5).map (fun (p : List (Str × JVal) × Str) => ((k, v) :: p.1, p.2))
    | '}' :: r5 => some ([(k, v)], r5)
    | _ => none) = _
  rw [skipWs_cons _ _ (by decide) (by decide) (by decide) (by decide)]
  rfl

theorem sortRendered_claims7 (t1 t2 t3 t4 t5 t6 t7 : Str) :
    sortRendered [(str "v", t1), (str "jti", t2), (str "plan", t3), (str "sub", t4),
      (str "iat", t5), (str "nbf", t6), (str "exp", t7)] =
    [(str "exp", t7), (str "iat", t5), (str "jti", t2), (str "nbf", t6),
      (str "plan", t3), (str "sub", t4), (str "v", t1)] := rfl

theorem dumpsPairs_claims7 (uuid plan customer : Str) (iat nbf exp : Int) :
    dumpsPairs [(str "v", .jint 1), (str "jti", .jstr uuid),
      (str "plan", .jstr plan), (str "sub", .jstr customer),
      (str "iat", .jint iat), (str "nbf", .jint nbf), (str "exp", .jint exp)] =
    [(str "v", escString (str "v") ++ ':' :: intDigits 1),
     (str "jti", escString (str "jti") ++ ':' :: escString uuid),
     (str "plan", escString (str "plan") ++ ':' :: escString plan),
     (str "sub", escString (str "sub") ++ ':' :: escString customer),
     (str "iat", escString (str "iat") ++ ':' :: intDigits iat),
     (str "nbf", escString (str "nbf") ++ ':' :: intDigits nbf),
     (str "exp", escString (str "exp") ++ ':' :: intDigits exp)] := rfl

theorem dumpsJ_claims7 (uuid plan customer : Str) (iat nbf exp : Int) :
    dumpsJ (.jobj [(str "v", .jint 1), (str "jti", .jstr uuid),
      (str "plan", .jstr plan), (str "sub", .jstr customer),
      (str "iat", .jint iat), (str "nbf", .jint nbf), (str "exp", .jint exp)]) =
    '{' :: (escString (str "exp") ++ ':' :: (intDigits exp ++ ',' ::
      (escString (str "iat") ++ ':' :: (intDigits iat ++ ',' ::
      (escString (str "jti") ++ ':' :: (escString uuid ++ ',' ::
      (escString (str "nbf") ++ ':' :: (intDigits nbf ++ ',' ::
      (escString (str "plan") ++ ':' :: (escString plan ++ ',' ::
      (escString (str "sub") ++ ':' :: (escString customer ++ ',' ::
      (escString (str "v") ++ ':' :: (intDigits 1 ++ ['}'])))))))))))))) := by
  show '{' :: joinComma ((sortRendered (dumpsPairs _)).map Prod.snd) ++ ['}'] = _
  rw [dumpsPairs_claims7, sortRendered_claims7]
  simp only [List.map_cons, List.map_nil, joinComma, List.append_assoc,
    List.cons_append, List.nil_append]

/-- ASCII bound for hex digits of values below 16. -/
theorem hexDigit_ascii (n : Nat) (h : n < 16) : (hexDigit n).toNat < 128 := by
  interval_cases n <;> decide

/-- ASCII bound for a four-digit hex rendering. -/
theorem hex4_ascii (n : Nat) : ∀ x ∈ hex4 n, x.toNat < 128 := by
  intro x hx
  simp only [hex4, List.mem_cons, List.not_mem_nil, or_false] at hx
  rcases hx with rfl | rfl | rfl | rfl <;>
    exact hexDigit_ascii _ (Nat.mod_lt _ (by omega))

/-- ASCII bound for `\u` escapes. -/
theorem uEscape_ascii (n : Nat) : ∀ x ∈ uEscape n, x.toNat < 128 := by
  intro x hx
  unfold uEscape at hx
  split_ifs at hx
  · simp only [List.mem_cons] at hx
    rcases hx with rfl | rfl | hx
    · decide
    · decide
    · exact hex4_ascii _ x hx
  · simp only [List.cons_append, List.mem_cons, List.mem_append] at hx
    rcases hx with rfl | rfl | hx | rfl | rfl | hx <;>
      first
        | decide
        | exact hex4_ascii _ x hx

/-- ASCII bound for a single escaped character. -/
theorem escChar_ascii (c : Char) : ∀ x ∈ escChar c, x.toNat < 128 := by
  intro x hx
  unfold escChar at hx
  split_ifs at hx with h1 h2 h3 h4 h5 h6 h7 h8
  · simp only [List.mem_cons, List.not_mem_nil, or_false] at hx
    rcases hx with rfl | rfl <;> decide
  · simp only [List.mem_cons, List.not_mem_nil, or_false] at hx
    rcases hx with rfl | rfl <;> decide
  · simp only [List.mem_cons, List.not_mem_nil, or_false] at hx
    rcases hx with rfl | rfl <;> decide
  · simp only [List.mem_cons, List.not_mem_nil, or_false] at hx
    rcases hx with rfl | rfl <;> decide
  · simp only [List.mem_cons, List.not_mem_nil, or_false] at hx
    rcases hx with rfl | rfl <;> decide
  · simp only [List.mem_cons, List.not_mem_nil, or_false] at hx
    rcases hx with rfl | rfl <;> decide
  · simp only [List.mem_cons, List.not_mem_nil, or_false] at hx
    rcases hx with rfl | rfl <;> decide
  · exact uEscape_ascii _ x hx
  · simp only [List.mem_cons, List.not_mem_nil, or_false] at hx
    subst hx
    simp only [Bool.or_eq_true, decide_eq_true_eq, not_or] at h8
    omega

/-- ASCII bound for an escaped string body. -/
theorem escBody_ascii (s : Str) : ∀ x ∈ escBody s, x.toNat < 128 := by
  induction s with
  | nil => intro x hx; cases hx
  | cons c cs ih =>
    intro x hx
    simp only [escBody, List.mem_append] at hx
    rcases hx with hx | hx
    · exact escChar_ascii c x hx
    · exact ih x hx

/-- ASCII bound for a rendered string literal. -/
theorem escString_ascii (s : Str) : ∀ x ∈ escString s, x.toNat < 128 := by
  intro x hx
  simp only [escString, List.mem_cons, List.mem_append,
    List.not_mem_nil, or_false] at hx
  rcases hx with (rfl | hx) | rfl
  · decide
  · exact escBody_ascii s x hx
  · decide

/-- ASCII bound for rendered decimal digits. -/
theorem natDigitsFuel_ascii :
    ∀ (f n : Nat), ∀ x ∈ natDigitsFuel f n, x.toNat < 128 := by
  intro f
  induction f with
  | zero => intro n x hx; cases hx
  | succ f ih =>
    intro n x hx
    simp only [natDigitsFuel] at hx
    split_ifs at hx with h10
    · simp only [List.mem_cons, List.not_mem_nil, or_false] at hx
      subst hx
      rw [digitChar_toNat n h10]
      omega
    · simp only [List.mem_append, List.mem_cons, List.not_mem_nil, or_false] at hx
      rcases hx with hx | rfl
      · exact ih (n / 10) x hx
      · rw [digitChar_toNat (n % 10) (by omega)]
        omega

/-- ASCII bound for a rendered integer. -/
theorem intDigits_ascii (n : Int) : ∀ x ∈ intDigits n, x.toNat < 128 := by
  intro x hx
  unfold intDigits at hx
  split_ifs at hx
  · simp only [List.mem_cons] at hx
    rcases hx with rfl | hx
    · decide
    · exact natDigitsFuel_ascii _ _ x hx
  · exact natDigitsFuel_ascii _ _ x hx

/-- Appending preserves the ASCII bound. -/
theorem mem_ascii_append {a b : Str} (ha : ∀ x ∈ a, x.toNat < 128)
    (hb : ∀ x ∈ b, x.toNat < 128) : ∀ x ∈ a ++ b, x.toNat < 128 := by
  intro x hx
  rcases List.mem_append.mp hx with h | h
  · exact ha x h
  · exact hb x h

/-- Consing an ASCII character preserves the ASCII bound. -/
theorem mem_ascii_cons {c : Char} {b : Str} (hc : c.toNat < 128)
    (hb : ∀ x ∈ b, x.toNat < 128) : ∀ x ∈ c :: b, x.toNat < 128 := by
  intro x hx
  rcases List.mem_cons.mp hx with rfl | h
  · exact hc
  · exact hb x h

/-- The canonical dump of the issued claims object is pure ASCII. -/
theorem dumpsJ_claims7_ascii (uuid plan customer : Str) (iat nbf exp : Int) :
    ∀ x ∈ dumpsJ (.jobj [(str "v", .jint 1), (str "jti", .jstr uuid),
      (str "plan", .jstr plan), (str "sub", .jstr customer),
      (str "iat", .jint iat), (str "nbf", .jint nbf), (str "exp", .jint exp)]),
      x.toNat < 128 := by
  rw [dumpsJ_claims7]
  exact mem_ascii_cons (by decide) (mem_ascii_append (escString_ascii _) (mem_ascii_cons (by decide) (mem_ascii_append (intDigits_ascii _) (mem_ascii_cons (by decide) (mem_ascii_append (escString_ascii _) (mem_ascii_cons (by decide) (mem_ascii_append (intDigits_ascii _) (mem_ascii_cons (by decide) (mem_ascii_append (escString_ascii _) (mem_ascii_cons (by decide) (mem_ascii_append (escString_ascii _) (mem_ascii_cons (by decide) (mem_ascii_append (escString_ascii _) (mem_ascii_cons (by decide) (mem_ascii_append (intDigits_ascii _) (mem_ascii_cons (by decide) (mem_ascii_append (escString_ascii _) (mem_ascii_cons (by decide) (mem_ascii_append (escString_ascii _) (mem_ascii_cons (by decide) (mem_ascii_append (escString_ascii _) (mem_ascii_cons (by decide) (mem_ascii_append (escString_ascii _) (mem_ascii_cons (by decide) (mem_ascii_append (escString_ascii _) (mem_ascii_cons (by decide) (mem_ascii_append (intDigits_ascii _) (mem_ascii_cons (by decide) (fun x hx => absurd hx (List.not_mem_nil x))))))))))))))))))))))))))))))

/-- `parseVal` on an opening brace defers to the member parser. -/
theorem parseVal_lbrace (f : Nat) (rest : Str) :
    parseVal (f + 1) ('{' :: rest) =
      (match skipWs rest with
       | '}' :: r2 => some (JVal.jobj [], r2)
       | r2 => (parseMembers f r2).map
          (fun (p : List (Str × JVal) × Str) => (JVal.jobj p.1, p.2))) := by
  simp only [parseVal]
  rw [skipWs_cons _ _ (by decide) (by decide) (by decide) (by decide)]
  show (if ('{' : Char) = '{' then
      match skipWs rest with
      | '}' :: r2 => some (JVal.jobj [], r2)
      | r2 => (parseMembers f r2).map
          (fun (p : List (Str × JVal) × Str) => (JVal.jobj p.1, p.2))
    else if ('{' : Char) = '[' then
      match skipWs rest with
      | ']' :: r2 => some (JVal.jarr [], r2)
      | r2 => (parseElems f r2).map
          (fun (p : List JVal × Str) => (JVal.jarr p.1, p.2))
    else if ('{' : Char) = '"' then
      (parseStrBody rest).map (fun p => (JVal.jstr p.1, p.2))
    else if ('{' : Char) = 't' then
      match rest with
      | 'r' :: 'u' :: 'e' :: r => some (JVal.jbool true, r)
      | _ => none
    else if ('{' : Char) = 'f' then
      match rest with
      | 'a' :: 'l' :: 's' :: 'e' :: r => some (JVal.jbool false, r)
      | _ => none
    else if ('{' : Char) = 'n' then
      match rest with
      | 'u' :: 'l' :: 'l' :: r => some (JVal.jnull, r)
      | _ => none
    else
      (parseJIntTok ('{' :: rest)).map (fun p => (JVal.jint p.1, p.2))) = _
  rw [if_pos rfl]

/-- Leading whitespace is never skipped off a string literal. -/
theorem skipWs_escString (s r : Str) : skipWs (escString s ++ r) = escString s ++ r := by
  show skipWs ('"' :: ((escBody s ++ ['"']) ++ r)) = _
  rw [skipWs_cons _ _ (by decide) (by decide) (by decide) (by decide)]
  rfl

/-- An object literal whose members start with a quoted key parses by the
member parser. -/
theorem parseVal_members (f : Nat) (k t : Str) (out : List (Str × JVal))
    (rout : Str)
    (hm : parseMembers f (escString k ++ ':' :: t) = some (out, rout)) :
    parseVal (f + 1) ('{' :: (escString k ++ ':' :: t)) =
      some (JVal.jobj out, rout) := by
  rw [parseVal_lbrace, skipWs_escString]
  show (parseMembers f (escString k ++ ':' :: t)).map
    (fun (p : List (Str × JVal) × Str) => (JVal.jobj p.1, p.2)) = _
  rw [hm]
  rfl

/-- The members of the issued claims object parse back, in sorted key
order, consuming the closing brace. -/
theorem parseMembers_claims7 (g : Nat) (uuid plan customer : Str)
    (iat nbf exp : Int) :
    parseMembers (g + 8)
      (escString (str "exp") ++ ':' :: (intDigits exp ++ ',' ::
       (escString (str "iat") ++ ':' :: (intDigits iat ++ ',' ::
       (escString (str "jti") ++ ':' :: (escString uuid ++ ',' ::
       (escString (str "nbf") ++ ':' :: (intDigits nbf ++ ',' ::
       (escString (str "plan") ++ ':' :: (escString plan ++ ',' ::
       (escString (str "sub") ++ ':' :: (escString customer ++ ',' ::
       (escString (str "v") ++ ':' :: (intDigits 1 ++ ['}'])))))))))))))) =
    some ([(str "exp", .jint exp), (str "iat", .jint iat),
      (str "jti", .jstr uuid), (str "nbf", .jint nbf),
      (str "plan", .jstr plan), (str "sub", .jstr customer),
      (str "v", .jint 1)], []) :=
  parseMembers_step (g + 7) (str "exp") _ _ _ _ _
    (parseVal_intDigits (g + 6) exp ',' _ (by decide))
    (parseMembers_step (g + 6) (str "iat") _ _ _ _ _
      (parseVal_intDigits (g + 5) iat ',' _ (by decide))
      (parseMembers_step (g + 5) (str "jti") _ _ _ _ _
        (parseVal_escString (g + 4) uuid _)
        (parseMembers_step (g + 4) (str "nbf") _ _ _ _ _
          (parseVal_intDigits (g + 3) nbf ',' _ (by decide))
          (parseMembers_step (g + 3) (str "plan") _ _ _ _ _
            (parseVal_escString (g + 2) plan _)
            (parseMembers_step (g + 2) (str "sub") _ _ _ _ _
              (parseVal_escString (g + 1) customer _)
              (parseMembers_last (g + 1) (str "v") _ _ _
                (parseVal_intDigits g 1 '}' [] (by decide))))))))

/-- `json.loads` inverts the canonical dump of the issued claims object,
yielding its members in sorted key order. -/
theorem parseJson_claims7 (uuid plan customer : Str) (iat nbf exp : Int) :
    parseJson (dumpsJ (.jobj [(str "v", .jint 1), (str "jti", .jstr uuid),
      (str "plan", .jstr plan), (str "sub", .jstr customer),
      (str "iat", .jint iat), (str "nbf", .jint nbf), (str "exp", .jint exp)])) =
    some (.jobj [(str "exp", .jint exp), (str "iat", .jint iat),
      (str "jti", .jstr uuid), (str "nbf", .jint nbf),
      (str "plan", .jstr plan), (str "sub", .jstr customer),
      (str "v", .jint 1)]) := by
  have hshape := dumpsJ_claims7 uuid plan customer iat nbf exp
  have hlen : 8 ≤ (dumpsJ (.jobj [(str "v", .jint 1), (str "jti", .jstr uuid),
      (str "plan", .jstr plan), (str "sub", .jstr customer),
      (str "iat", .jint iat), (str "nbf", .jint nbf),
      (str "exp", .jint exp)])).length := by
    rw [hshape]
    simp only [List.length_cons, List.length_append]
    have h5 : (escString (str "exp")).length = 5 := rfl
    omega
  obtain ⟨g, hg⟩ : ∃ g, (dumpsJ (.jobj [(str "v", .jint 1), (str "jti", .jstr uuid),
      (str "plan", .jstr plan), (str "sub", .jstr customer),
      (str "iat", .jint iat), (str "nbf", .jint nbf),
      (str "exp", .jint exp)])).length + 1 = g + 9 :=
    ⟨(dumpsJ (.jobj [(str "v", .jint 1), (str "jti", .jstr uuid),
      (str "plan", .jstr plan), (str "sub", .jstr customer),
      (str "iat", .jint iat), (str "nbf", .jint nbf),
      (str "exp", .jint exp)])).length - 8, by omega⟩
  unfold parseJson
  rw [hg, hshape, parseVal_members (g + 8) (str "exp") _ _ _
    (parseMembers_claims7 g uuid plan customer iat nbf exp)]
  rfl

/-- Stages 5–8 succeed on the issued (sorted) claims when the plan is
recognized, the expiry has not passed, the not-before is not in the
future, and nothing is revoked. -/
theorem validateClaims_claims7 (uuid plan customer : Str) (iat nbf exp clk : Int)
    (hgate : lowerStr plan = str "free" ∨ lowerStr plan = str "pro" ∨
      lowerStr plan = str "enterprise")
    (hexp : ¬ exp < clk) (hnbf : ¬ nbf > clk) :
    validateClaims (.jobj [(str "exp", .jint exp), (str "iat", .jint iat),
      (str "jti", .jstr uuid), (str "nbf", .jint nbf),
      (str "plan", .jstr plan), (str "sub", .jstr customer),
      (str "v", .jint 1)]) [] clk =
    .ok ⟨true, lowerStr plan, "ok",
      some (.jobj [(str "exp", .jint exp), (str "iat", .jint iat),
        (str "jti", .jstr uuid), (str "nbf", .jint nbf),
        (str "plan", .jstr plan), (str "sub", .jstr customer),
        (str "v", .jint 1)])⟩ := by
  have hpo : planOf [(str "exp", .jint exp), (str "iat", .jint iat),
      (str "jti", .jstr uuid), (str "nbf", .jint nbf),
      (str "plan", .jstr plan), (str "sub", .jstr customer),
      (str "v", .jint 1)] = lowerStr plan := rfl
  simp only [validateClaims]
  rw [hpo, if_neg (not_not_intro hgate)]
  simp only [stageExp, pyGet]
  rw [show lookupLast [(str "exp", .jint exp), (str "iat", .jint iat),
      (str "jti", .jstr uuid), (str "nbf", .jint nbf),
      (str "plan", .jstr plan), (str "sub", .jstr customer),
      (str "v", .jint 1)] (str "exp") = some (.jint exp) from rfl]
  simp only [isNoneV, Option.getD, pyToInt, Bool.false_eq_true, if_false]
  rw [if_neg hexp]
  simp only [stageNbf, pyGet]
  rw [show lookupLast [(str "exp", .jint exp), (str "iat", .jint iat),
      (str "jti", .jstr uuid), (str "nbf", .jint nbf),
      (str "plan", .jstr plan), (str "sub", .jstr customer),
      (str "v", .jint 1)] (str "nbf") = some (.jint nbf) from rfl]
  simp only [isNoneV, Option.getD, pyToInt, Bool.false_eq_true, if_false]
  rw [if_neg hnbf]
  simp only [stageJti, pyGet]
  rw [show lookupLast [(str "exp", .jint exp), (str "iat", .jint iat),
      (str "jti", .jstr uuid), (str "nbf", .jint nbf),
      (str "plan", .jstr plan), (str "sub", .jstr customer),
      (str "v", .jint 1)] (str "jti") = some (.jstr uuid) from rfl]
  simp only [Option.getD]
  simp only [show strInRevoked (pyStr (.jstr uuid)) [] = false from rfl,
    Bool.and_false, Bool.false_eq_true, if_false]

/-- The verifier on a well-assembled token with a verifying signature
reaches the payload-parsing stage. -/
theorem validate_token_of_parts (verify : List Nat → List Nat → Bool)
    (P S : List Nat) (rv : List JVal) (now : Int)
    (hP : ∀ b ∈ P, b < 256) (hS : ∀ b ∈ S, b < 256)
    (hv : verify S P = true) :
    validate_signed_token verify
      (str "SSDL1." ++ b64urlEncode P ++ '.' :: b64urlEncode S) rv now =
      match (utf8Decode P).bind parseJson with
      | none => .ok ⟨false, str "free", "invalid_payload", none⟩
      | some claims => validateClaims claims rv now := by
  unfold validate_signed_token
  rw [splitCh_token _ _ (b64urlEncode_ne_dot P) (b64urlEncode_ne_dot S)]
  show (if str "SSDL1" ≠ str "SSDL1" then
      Except.ok ⟨false, str "free", "invalid_format", none⟩
    else
      match b64urlDecode (b64urlEncode P), b64urlDecode (b64urlEncode S) with
      | some payload_bytes, some signature =>
        if !verify signature payload_bytes then
          Except.ok ⟨false, str "free", "invalid_signature", none⟩
        else
          match (utf8Decode payload_bytes).bind parseJson with
          | none => Except.ok ⟨false, str "free", "invalid_payload", none⟩
          | some claims => validateClaims claims rv now
      | _, _ => Except.ok ⟨false, str "free", "invalid_encoding", none⟩) = _
  rw [if_neg (not_not_intro rfl), b64urlDecode_encode P hP, b64urlDecode_encode S hS]
  show (if !verify S P then
      Except.ok ⟨false, str "free", "invalid_signature", none⟩
    else
      match (utf8Decode P).bind parseJson with
      | none => Except.ok ⟨false, str "free", "invalid_payload", none⟩
      | some claims => validateClaims claims rv now) = _
  rw [hv]
  simp only [Bool.not_true, Bool.false_eq_true, if_false]

set_option maxHeartbeats 2000000 in
/-- C1: round-trip — a token issued for plan `pro` or `enterprise`, any
customer id, any issuing time, and a positive validity window, validated
with a verifier matching the signer, an empty revocation set, and a clock
inside the validity window, yields `{valid: true, tier: plan,
reason: "ok"}`. -/
theorem claim_C1_roundtrip (sign : List Nat → List Nat)
    (verify : List Nat → List Nat → Bool)
    (hsv : ∀ m, verify (sign m) m = true)
    (hsign : ∀ m, ∀ b ∈ sign m, b < 256)
    (uuid plan customer : Str) (now : Int) (days : Nat) (clk : Int)
    (hplan : plan = str "pro" ∨ plan = str "enterprise")
    (hdays : 0 < days)
    (hlo : now ≤ clk) (hhi : clk ≤ now + (days : Int) * 86400) :
    ∃ claims : Option JVal, validate_signed_token verify
      (issue sign uuid now plan customer days []) [] clk =
      .ok ⟨true, plan, "ok", claims⟩ := by
  have hlow : lowerStr plan = plan := by
    rcases hplan with rfl | rfl <;> decide
  have hD := parseJson_claims7 uuid plan customer now now
    (now + (days : Int) * 86400)
  have hascii := dumpsJ_claims7_ascii uuid plan customer now now
    (now + (days : Int) * 86400)
  have hmain := validate_token_of_parts verify
    (utf8Encode (dumpsJ (.jobj [(str "v", .jint 1), (str "jti", .jstr uuid),
      (str "plan", .jstr plan), (str "sub", .jstr customer),
      (str "iat", .jint now), (str "nbf", .jint now),
      (str "exp", .jint (now + (days : Int) * 86400))])))
    (sign (utf8Encode (dumpsJ (.jobj [(str "v", .jint 1), (str "jti", .jstr uuid),
      (str "plan", .jstr plan), (str "sub", .jstr customer),
      (str "iat", .jint now), (str "nbf", .jint now),
      (str "exp", .jint (now + (days : Int) * 86400))]))))
    [] clk (utf8Encode_lt_256 _) (hsign _) (hsv _)
  refine ⟨some (.jobj [(str "exp", .jint (now + (days : Int) * 86400)),
    (str "iat", .jint now), (str "jti", .jstr uuid), (str "nbf", .jint now),
    (str "plan", .jstr plan), (str "sub", .jstr customer),
    (str "v", .jint 1)]), ?_⟩
  have htok : issue sign uuid now plan customer days [] =
      str "SSDL1." ++
        b64urlEncode (utf8Encode (dumpsJ (.jobj [(str "v", .jint 1),
          (str "jti", .jstr uuid), (str "plan", .jstr plan),
          (str "sub", .jstr customer), (str "iat", .jint now),
          (str "nbf", .jint now),
          (str "exp", .jint (now + (days : Int) * 86400))]))) ++
        '.' :: b64urlEncode (sign (utf8Encode (dumpsJ (.jobj [(str "v", .jint 1),
          (str "jti", .jstr uuid), (str "plan", .jstr plan),
          (str "sub", .jstr customer), (str "iat", .jint now),
          (str "nbf", .jint now),
          (str "exp", .jint (now + (days : Int) * 86400))])))) := rfl
  rw [htok, hmain, utf8Decode_encode_ascii _ hascii, Option.some_bind, hD]
  show validateClaims (.jobj [(str "exp", .jint (now + (days : Int) * 86400)),
    (str "iat", .jint now), (str "jti", .jstr uuid), (str "nbf", .jint now),
    (str "plan", .jstr plan), (str "sub", .jstr customer),
    (str "v", .jint 1)]) [] clk = _
  rw [validateClaims_claims7 uuid plan customer now now
    (now + (days : Int) * 86400) clk (by rw [hlow]; exact Or.inr hplan)
    (by omega) (by omega), hlow]

/-- Witness for C1 at a concrete signer, verifier, and issuance. -/
theorem claim_C1_witness :
    ∃ claims : Option JVal, validate_signed_token (fun _ _ => true)
      (issue (fun _ => []) (str "u") 0 (str "pro") (str "c") 1 []) [] 0 =
      .ok ⟨true, str "pro", "ok", claims⟩ :=
  claim_C1_roundtrip (fun _ => []) (fun _ _ => true) (fun _ => rfl)
    (fun _ b hb => absurd hb (List.not_mem_nil b)) (str "u") (str "pro")
    (str "c") 0 1 0 (Or.inl rfl) (by decide) (by decide) (by decide)
